import Mathlib

/-!
Verification of the reprojection/resampling engine of `util/resample.py`.

The Python module reprojects a source image onto a target pixel grid given two
duck-typed WCS coordinate mappers, and Lanczos-resamples pixel values.  We give
a shallow embedding: numpy float arrays of pixel coordinates become `List ℚ`
(Python float arithmetic modelled exactly), integer index arrays become
`List ℤ`, and resampled pixel values live in `ℝ` because the Lanczos kernel is
sinc-based.  The scipy `RectBivariateSpline` fit is an external library
collaborator and is abstracted as a fit operator passed in as a parameter; no
claim below depends on the values it produces.
-/

/-- Error taxonomy of `resample.py` (lines 9-16): `NoOverlapError` and
`SmallOverlapError` are the two overlap errors; a failed `assert` statement
surfaces as a Python `AssertionError`, modelled by `assertionFailed`. -/
inductive ResampleError where
  | noOverlap
  | smallOverlap
  | assertionFailed
deriving DecidableEq

/-- Duck-typed WCS collaborator (docstring lines 36-44): integer image
dimensions plus vectorized pixel-to-sky and sky-to-pixel conversions in FITS
(1-indexed) pixel convention.  The Bool in `radec2pixelxy` is the `ok` flag,
accepted but ignored by the resampling core. -/
structure WCS where
  imagew : ℤ
  imageh : ℤ
  pixelxy2radec : ℚ → ℚ → ℚ × ℚ
  radec2pixelxy : ℚ → ℚ → Bool × ℚ × ℚ

/-- `np.round`: round half to even (banker's rounding), as used by
`np.round(...).astype(int)` in lines 87-88 and 221-222. -/
def roundHalfEven (q : ℚ) : ℤ :=
  if q - ⌊q⌋ < 1/2 then ⌊q⌋
  else if 1/2 < q - ⌊q⌋ then ⌊q⌋ + 1
  else if ⌊q⌋ % 2 = 0 then ⌊q⌋ else ⌊q⌋ + 1

/-- `np.arange(lo, hi, dtype=int)`: the integers of the half-open interval
`[lo, hi)`. -/
def arange (lo hi : ℤ) : List ℤ :=
  (List.range (hi - lo).toNat).map (fun i : ℕ => lo + (i : ℤ))

/-- Era-accurate `np.linspace(start, stop, num)` (endpoint included): empty for
`num ≤ 0`, `[start]` for `num = 1`, else `num` evenly spaced points from
`start` to `stop` inclusive. -/
def linspace (start stop : ℚ) (num : ℤ) : List ℚ :=
  if num ≤ 0 then []
  else if num = 1 then [start]
  else (List.range num.toNat).map
    (fun i : ℕ => start + (stop - start) * (i : ℚ) / ((num : ℚ) - 1))

/-- `np.clip(v, lo, hi)`. -/
def clip (v lo hi : ℤ) : ℤ := min (max v lo) hi

/-- 2-D array indexing `im[y, x]` for a row-major list-of-rows image. -/
def imAt {K : Type} [Zero K] (im : List (List K)) (y x : ℤ) : K :=
  (im.getD y.toNat []).getD x.toNat 0

/-- `np.arange(-L, L+1)`: kernel offsets (line 314 of `resample.py`). -/
def off (L : ℕ) : List ℤ :=
  (List.range (2 * L + 1)).map (fun i : ℕ => (i : ℤ) - (L : ℤ))

/-- Modelled from the spec: `lanczos_filter` is imported from `miscutils`,
which is not under `src/`.  Per the spec (glossary and section 4.5) it is the
1-D Lanczos kernel of order `L`: a finite-support sinc-based kernel, i.e.
`sinc(x) * sinc(x/L)` for `|x| < L` and `0` outside the support, with the
normalized `sinc(x) = sin(pi x)/(pi x)` and value `1` at `x = 0`. -/
noncomputable def lanczos_filter (L : ℕ) (x : ℚ) : ℝ :=
  if x = 0 then 1
  else if (L : ℚ) ≤ |x| then 0
  else (Real.sin (Real.pi * (x : ℝ)) / (Real.pi * (x : ℝ))) *
       (Real.sin (Real.pi * (x : ℝ) / (L : ℝ)) / (Real.pi * (x : ℝ) / (L : ℝ)))

/-- Modelled from the spec: `lanczos3_filter_table` comes from the compiled
`util` extension, not under `src/`.  The spec (section 4.5) describes it as a
precomputed lookup table for the order-3 kernel that is "a pure optimization;
numerically must match the general formula", so it is modelled as the general
order-3 kernel. -/
noncomputable def lanczos3_filter_table (x : ℚ) : ℝ := lanczos_filter 3 x

/-- Kernel-function selection of `_lanczos_interpolate` (lines 301-308):
`lfunc` is the general `lanczos_filter` unless `L == 3` and the fast table
load succeeds (`tableAvail`), in which case a wrapper around
`lanczos3_filter_table` that ignores the order argument is used. -/
noncomputable def selectedFilter (tableAvail : Bool) (L : ℕ) : ℕ → ℚ → ℝ :=
  if tableAvail = true ∧ L = 3 then (fun _ x => lanczos3_filter_table x)
  else lanczos_filter

/-- Body of `_lanczos_interpolate` (lines 310-326) for a given kernel function
`lfunc`.  For each pixel `k` and each offset pair `(oy, ox)` in
`[-L,L] x [-L,L]`, the separable weight `fx * fy` with `fx = lfunc L (dx - ox)`
and `fy = lfunc L (dy - oy)` multiplies the border-clamped source sample and is
accumulated into the per-image accumulator; the same weight is accumulated into
the running normalization sum `fsum` once per image (the `fsum += fx*fy`
statement sits inside the per-image loop).  Finally each accumulator is divided
elementwise by `fsum`. -/
def lanczosInterpolate {K : Type} [Field K] (lfunc : ℕ → ℚ → K) (L : ℕ)
    (ixi iyi : List ℤ) (dx dy : List ℚ) (limages : List (List (List K))) :
    List (List K) :=
  let h : ℤ := ((limages.getD 0 []).length : ℤ)
  let w : ℤ := (((limages.getD 0 []).getD 0 []).length : ℤ)
  let n := ixi.length
  let weight : ℕ → ℤ → ℤ → K := fun k oy ox =>
    lfunc L (dx.getD k 0 - (ox : ℚ)) * lfunc L (dy.getD k 0 - (oy : ℚ))
  let fsum : ℕ → K := fun k =>
    ((off L).map (fun oy => ((off L).map (fun ox =>
      (limages.map (fun _ => weight k oy ox)).sum)).sum)).sum
  let lacc : List (List K) → ℕ → K := fun im k =>
    ((off L).map (fun oy => ((off L).map (fun ox =>
      weight k oy ox *
        imAt im (clip (iyi.getD k 0 + oy) 0 (h - 1))
                (clip (ixi.getD k 0 + ox) 0 (w - 1)))).sum)).sum
  limages.map (fun im => (List.range n).map (fun k => lacc im k / fsum k))

/-- `_lanczos_interpolate` (lines 290-326): kernel selection followed by the
vectorized accumulation loop. -/
noncomputable def _lanczos_interpolate (tableAvail : Bool) (L : ℕ)
    (ixi iyi : List ℤ) (dx dy : List ℚ) (limages : List (List (List ℝ))) :
    List (List ℝ) :=
  lanczosInterpolate (selectedFilter tableAvail L) L ixi iyi dx dy limages

/-- Bounding box of the reprojected source image (lines 80-88): map the four
1-indexed corner pixels of the source image through source pixel-to-sky and
target sky-to-pixel, subtract 1, take per-axis min and max over the four
points, and round to the nearest integers. -/
structure BBox where
  x0 : ℤ
  y0 : ℤ
  x1 : ℤ
  y1 : ℤ
deriving DecidableEq

def bboxOf (targetwcs wcs : WCS) (w h : ℤ) : BBox :=
  let proj : ℚ → ℚ → ℚ × ℚ := fun x y =>
    let rd := wcs.pixelxy2radec (x + 1) (y + 1)
    let t := targetwcs.radec2pixelxy rd.1 rd.2
    (t.2.1 - 1, t.2.2 - 1)
  let p1 := proj 0 0
  let p2 := proj ((w : ℚ) - 1) 0
  let p3 := proj ((w : ℚ) - 1) ((h : ℚ) - 1)
  let p4 := proj 0 ((h : ℚ) - 1)
  ⟨roundHalfEven (min (min (min p1.1 p2.1) p3.1) p4.1),
   roundHalfEven (min (min (min p1.2 p2.2) p3.2) p4.2),
   roundHalfEven (max (max (max p1.1 p2.1) p3.1) p4.1),
   roundHalfEven (max (max (max p1.2 p2.2) p3.2) p4.2)⟩

/-- Spec-side formulation for the bounding-box claim: a 1-indexed source corner
pixel `(cx, cy)` mapped through source pixel-to-sky then target sky-to-pixel,
minus 1 to return to 0-indexed target coordinates. -/
def cornerProj (targetwcs wcs : WCS) (cx cy : ℚ) : ℚ × ℚ :=
  let rd := wcs.pixelxy2radec cx cy
  let t := targetwcs.radec2pixelxy rd.1 rd.2
  (t.2.1 - 1, t.2.2 - 1)

/-- One spline spanning vector (lines 94-101): the bounding box side padded by
`margin`, clamped against `[0, lim]`, then `np.linspace` with
`ceil((hi-lo)/step) + 1` nodes. -/
def spanNodes (lim a b : ℤ) (margin : ℤ) (step : ℚ) : List ℚ :=
  let lo := max 0 (a - margin)
  let hi := min lim (b + margin)
  let num := ⌈(((hi : ℚ) - (lo : ℚ)) / step)⌉ + 1
  linspace (lo : ℚ) (hi : ℚ) num

/-- The direct (non-spline) coordinate mapper (lines 209-213): a target pixel
coordinate is converted to FITS 1-indexed convention, mapped to sky by the
target WCS, then to a source pixel by the source WCS, and back to 0-indexed
convention; x component. -/
def directFx (targetwcs wcs : WCS) : ℚ → ℚ → ℚ := fun tx ty =>
  let rd := targetwcs.pixelxy2radec (tx + 1) (ty + 1)
  (wcs.radec2pixelxy rd.1 rd.2).2.1 - 1

/-- Direct coordinate mapper, y component. -/
def directFy (targetwcs wcs : WCS) : ℚ → ℚ → ℚ := fun tx ty =>
  let rd := targetwcs.pixelxy2radec (tx + 1) (ty + 1)
  (wcs.radec2pixelxy rd.1 rd.2).2.2 - 1

/-- The dense target-pixel grid, x axis (line 165):
`np.arange(max(0, x0-margin), min(W, x1+margin+1))`. -/
def gridX (W a b margin : ℤ) : List ℤ :=
  arange (max 0 (a - margin)) (min W (b + margin + 1))

/-- The dense target-pixel grid, y axis (line 166). -/
def gridY (H a b margin : ℤ) : List ℤ :=
  arange (max 0 (a - margin)) (min H (b + margin + 1))

/-- Dense evaluation of a coordinate mapper over the flattened (row-major)
target grid: flattened index `k` corresponds to grid cell
`(row k / nI, col k % nI)` with `nI = ixo.length`, matching
`np.unravel_index(I, (len(iyo), len(ixo)))`. -/
def denseEval (f : ℚ → ℚ → ℚ) (ixo iyo : List ℤ) : ℕ → ℚ :=
  fun k => f ((ixo.getD (k % ixo.length) 0 : ℤ) : ℚ) ((iyo.getD (k / ixo.length) 0 : ℤ) : ℚ)

/-- In-bounds filter (line 225): flattened indices whose rounded source
coordinates satisfy `0 <= ixi < w` and `0 <= iyi < h`. -/
def retainedKs (w h : ℤ) (ixo iyo : List ℤ) (fxiF fyiF : ℕ → ℚ) : List ℕ :=
  (List.range (iyo.length * ixo.length)).filter
    (fun k => decide (0 ≤ roundHalfEven (fxiF k) ∧ 0 ≤ roundHalfEven (fyiF k) ∧
                      roundHalfEven (fxiF k) < w ∧ roundHalfEven (fyiF k) < h))

/-- The pipeline stage shared by the spline and direct paths (lines 164-287):
build the dense grid (raising `NoOverlapError` when empty), evaluate the
source-coordinate functions over it, round, filter in-bounds pixels, recover
2-D target indices from the flat indices, and Lanczos-interpolate the supplied
images at the fractional residuals. -/
noncomputable def gridStage (tableAvail : Bool) (L : ℕ) (W H w h : ℤ)
    (x0 y0 x1 y1 margin : ℤ) (fx fy : ℚ → ℚ → ℚ)
    (Limages : List (List (List ℝ))) :
    Except ResampleError (List ℤ × List ℤ × List ℤ × List ℤ × List (List ℝ)) :=
  let ixo := gridX W x0 x1 margin
  let iyo := gridY H y0 y1 margin
  if ixo.length = 0 ∨ iyo.length = 0 then .error .noOverlap
  else
    let fxiF := denseEval fx ixo iyo
    let fyiF := denseEval fy ixo iyo
    let ks := retainedKs w h ixo iyo fxiF fyiF
    let Yo := ks.map (fun k : ℕ => iyo.getD 0 0 + ((k / ixo.length : ℕ) : ℤ))
    let Xo := ks.map (fun k : ℕ => ixo.getD 0 0 + ((k % ixo.length : ℕ) : ℤ))
    let Yi := ks.map (fun k => roundHalfEven (fyiF k))
    let Xi := ks.map (fun k => roundHalfEven (fxiF k))
    let dx := ks.map (fun k => fxiF k - (roundHalfEven (fxiF k) : ℚ))
    let dy := ks.map (fun k => fyiF k - (roundHalfEven (fyiF k) : ℚ))
    let rims := if Limages.length = 0 then []
                else _lanczos_interpolate tableAvail L Xi Yi dx dy Limages
    .ok (Yo, Xo, Yi, Xi, rims)

/-- `resample_with_wcs` (lines 18-287).  `splineFit` abstracts the external
scipy `RectBivariateSpline` operator: given the node vectors and the (node)
grid of exactly computed source coordinates (transposed, as in the source), it
yields a surface evaluable at any target coordinate pair.  `tableAvail` models
success of the optional fast-kernel import inside `_lanczos_interpolate`. -/
noncomputable def resample_with_wcs
    (splineFit : List ℚ → List ℚ → List (List ℚ) → ℚ → ℚ → ℚ)
    (tableAvail : Bool) (targetwcs wcs : WCS)
    (Limages : List (List (List ℝ))) (L : ℕ)
    (spline : Bool) (splineFallback : Bool) (splineStep : ℚ) (splineMargin : ℤ) :
    Except ResampleError (List ℤ × List ℤ × List ℤ × List ℤ × List (List ℝ)) :=
  let W := targetwcs.imagew
  let H := targetwcs.imageh
  let w := wcs.imagew
  let h := wcs.imageh
  if ∀ im ∈ Limages, (im.length : ℤ) = h ∧ ∀ row ∈ im, (row.length : ℤ) = w then
    let bb := bboxOf targetwcs wcs w h
    if spline then
      let xx := spanNodes W bb.x0 bb.x1 splineMargin splineStep
      let yy := spanNodes H bb.y0 bb.y1 splineMargin splineStep
      if xx.length = 0 ∨ yy.length = 0 then .error .noOverlap
      else if xx.length ≤ 3 ∨ yy.length ≤ 3 then
        if splineFallback then
          gridStage tableAvail L W H w h bb.x0 bb.y0 bb.x1 bb.y1 0
            (directFx targetwcs wcs) (directFy targetwcs wcs) Limages
        else .error .smallOverlap
      else
        let XoGrid := yy.map (fun y => xx.map (fun x => directFx targetwcs wcs x y))
        let YoGrid := yy.map (fun y => xx.map (fun x => directFy targetwcs wcs x y))
        gridStage tableAvail L W H w h bb.x0 bb.y0 bb.x1 bb.y1 splineMargin
          (fun tx ty => splineFit xx yy XoGrid.transpose tx ty)
          (fun tx ty => splineFit xx yy YoGrid.transpose tx ty) Limages
    else
      gridStage tableAvail L W H w h bb.x0 bb.y0 bb.x1 bb.y1 0
        (directFx targetwcs wcs) (directFy targetwcs wcs) Limages
  else .error .assertionFailed

/-- Synthetic identity-like WCS used in concrete witnesses: pixel-to-sky and
sky-to-pixel are both the identity on coordinate pairs. -/
def idWCS (n : ℤ) : WCS :=
  ⟨n, n, fun x y => (x, y), fun r d => (true, r, d)⟩

/-- Synthetic WCS whose sky-to-pixel conversion is constant, used to place the
projected source bounding box at a chosen location in concrete
counterexamples. -/
def constWCS (wdim hdim : ℤ) (px py : ℚ) : WCS :=
  ⟨wdim, hdim, fun x y => (x, y), fun _ _ => (true, px, py)⟩

/-- A trivial spline-fit operator for concrete witnesses (its values are never
relevant to the claims being witnessed). -/
def trivialSplineFit : List ℚ → List ℚ → List (List ℚ) → ℚ → ℚ → ℚ :=
  fun _ _ _ _ _ => 0

/-- Spec-side notion for the amended no-overlap claim: the margin actually
used to build the dense pixel grid.  It is the configured `margin` only when
spline mode survives the node-count checks (both spanning vectors have at
least 4 nodes); in every other configuration (spline disabled, or fallback
after a small spline), the code resets the margin to 0 (line 162). -/
def effectiveMargin (sp : Bool) (margin : ℤ) (xx yy : List ℚ) : ℤ :=
  if sp = true ∧ 4 ≤ xx.length ∧ 4 ≤ yy.length then margin else 0

/-! ### Helper lemmas: numpy primitives -/

theorem arange_length (lo hi : ℤ) : (arange lo hi).length = (hi - lo).toNat := by
  unfold arange
  rw [List.length_map, List.length_range]

theorem arange_eq_nil_iff {lo hi : ℤ} : arange lo hi = [] ↔ hi ≤ lo := by
  rw [← List.length_eq_zero, arange_length]
  omega

theorem arange_getD {lo hi : ℤ} {i : ℕ} (h : i < (arange lo hi).length) :
    (arange lo hi).getD i 0 = lo + (i : ℤ) := by
  rw [List.getD_eq_getElem _ _ h]
  simp [arange]

theorem linspace_eq_nil_iff {a b : ℚ} {n : ℤ} : linspace a b n = [] ↔ n ≤ 0 := by
  unfold linspace
  split
  · simp [*]
  · split
    · rename_i h1 h2
      exact iff_of_false (by simp) (by omega)
    · rename_i h1 h2
      simp only [List.map_eq_nil_iff, List.range_eq_nil, Int.toNat_eq_zero]

theorem linspace_length {a b : ℚ} {n : ℤ} : (linspace a b n).length = n.toNat := by
  unfold linspace
  split
  · rename_i h; simp; omega
  · split
    · rename_i h1 h2; subst h2; simp
    · rw [List.length_map, List.length_range]

theorem linspace_one (a b : ℚ) : linspace a b 1 = [a] := by
  norm_num [linspace]

theorem linspace_getD {a b : ℚ} {n : ℤ} (h2 : 2 ≤ n) {i : ℕ} (hi : i < n.toNat) :
    (linspace a b n).getD i 0 = a + (b - a) * (i : ℚ) / ((n : ℚ) - 1) := by
  have h0 : ¬ (n ≤ 0) := by omega
  have h1 : ¬ (n = 1) := by omega
  unfold linspace
  rw [if_neg h0, if_neg h1]
  have hlen : i < ((List.range n.toNat).map
      (fun i : ℕ => a + (b - a) * (i : ℚ) / ((n : ℚ) - 1))).length := by
    rw [List.length_map, List.length_range]; exact hi
  rw [List.getD_eq_getElem _ _ hlen]
  simp

theorem linspace_mem_bounds {a b : ℚ} {n : ℤ} (hab : a ≤ b) {q : ℚ}
    (hq : q ∈ linspace a b n) : a ≤ q ∧ q ≤ b := by
  unfold linspace at hq
  split at hq
  · simp at hq
  · split at hq
    case isTrue h1 h2 =>
      rw [List.mem_singleton] at hq
      subst hq
      exact ⟨le_rfl, hab⟩
    case isFalse h1 h2 =>
      obtain ⟨i, hi, rfl⟩ := List.mem_map.1 hq
      rw [List.mem_range] at hi
      have hn2 : (2 : ℤ) ≤ n := by omega
      have hn1 : (0 : ℚ) < (n : ℚ) - 1 := by
        have h3 : ((2 : ℤ) : ℚ) ≤ (n : ℚ) := by exact_mod_cast hn2
        push_cast at h3 ⊢
        linarith
      have hiq : (i : ℚ) ≤ (n : ℚ) - 1 := by
        have h4 : (i : ℤ) ≤ n - 1 := by omega
        exact_mod_cast h4
      constructor
      · have h5 : 0 ≤ (b - a) * (i : ℚ) / ((n : ℚ) - 1) :=
          div_nonneg (mul_nonneg (by linarith) (by positivity)) (le_of_lt hn1)
        linarith
      · have hle : (b - a) * (i : ℚ) / ((n : ℚ) - 1) ≤ b - a := by
          rw [div_le_iff₀ hn1]
          exact mul_le_mul_of_nonneg_left hiq (by linarith)
        linarith

/-! ### Helper lemmas: rounding -/

theorem roundHalfEven_intCast (n : ℤ) : roundHalfEven (n : ℚ) = n := by
  have h : ((n : ℚ) - ⌊(n : ℚ)⌋ : ℚ) = 0 := by
    rw [Int.floor_intCast]; ring
  unfold roundHalfEven
  rw [h, if_pos (by norm_num), Int.floor_intCast]

theorem floor_le_roundHalfEven (q : ℚ) : ⌊q⌋ ≤ roundHalfEven q := by
  unfold roundHalfEven
  split
  · exact le_refl _
  · split
    · omega
    · split <;> omega

theorem roundHalfEven_le_floor_add_one (q : ℚ) : roundHalfEven q ≤ ⌊q⌋ + 1 := by
  unfold roundHalfEven
  split
  · omega
  · split
    · omega
    · split <;> omega

theorem roundHalfEven_mono : Monotone roundHalfEven := by
  intro a b hab
  by_cases h : ⌊a⌋ < ⌊b⌋
  · calc roundHalfEven a ≤ ⌊a⌋ + 1 := roundHalfEven_le_floor_add_one a
      _ ≤ ⌊b⌋ := by omega
      _ ≤ roundHalfEven b := floor_le_roundHalfEven b
  · have hf : ⌊a⌋ = ⌊b⌋ := le_antisymm (Int.floor_mono hab) (not_lt.1 h)
    unfold roundHalfEven
    rw [← hf]
    split_ifs <;> first | omega | linarith

theorem roundHalfEven_min (a b : ℚ) :
    roundHalfEven (min a b) = min (roundHalfEven a) (roundHalfEven b) :=
  roundHalfEven_mono.map_min

theorem roundHalfEven_max (a b : ℚ) :
    roundHalfEven (max a b) = max (roundHalfEven a) (roundHalfEven b) :=
  roundHalfEven_mono.map_max

/-! ### Helper lemmas: kernel offsets and sums -/

theorem off_nodup (L : ℕ) : (off L).Nodup := by
  unfold off
  refine List.Nodup.map ?_ (List.nodup_range _)
  intro i j hij
  have h2 : (i : ℤ) - (L : ℤ) = (j : ℤ) - (L : ℤ) := hij
  omega

theorem zero_mem_off (L : ℕ) : (0 : ℤ) ∈ off L := by
  unfold off
  refine List.mem_map.2 ⟨L, ?_, by simp⟩
  rw [List.mem_range]; omega

theorem sum_map_eq_single {M : Type} [AddCommMonoid M] (f : ℤ → M) :
    ∀ (l : List ℤ), l.Nodup → ∀ a ∈ l, (∀ b ∈ l, b ≠ a → f b = 0) →
      (l.map f).sum = f a := by
  intro l
  induction l with
  | nil => intro _ a ha; simp at ha
  | cons x t ih =>
    intro hnd a ha h0
    have hnd' := List.nodup_cons.1 hnd
    rcases List.mem_cons.1 ha with rfl | hat
    · simp only [List.map_cons, List.sum_cons]
      have hz : (t.map f).sum = 0 := by
        apply List.sum_eq_zero
        intro y hy
        obtain ⟨b, hb, rfl⟩ := List.mem_map.1 hy
        exact h0 b (List.mem_cons_of_mem _ hb) (fun hEq => hnd'.1 (hEq ▸ hb))
      rw [hz, add_zero]
    · have hx0 : f x = 0 :=
        h0 x (List.mem_cons_self _ _) (fun hEq => hnd'.1 (hEq ▸ hat))
      simp only [List.map_cons, List.sum_cons, hx0, zero_add]
      exact ih hnd'.2 a hat (fun b hb hne => h0 b (List.mem_cons_of_mem _ hb) hne)

/-! ### Helper lemmas: the Lanczos kernel at integer offsets -/

theorem lanczos_filter_zero (L : ℕ) : lanczos_filter L 0 = 1 := by
  simp [lanczos_filter]

theorem lanczos_filter_intCast {L : ℕ} {o : ℤ} (ho : o ≠ 0) :
    lanczos_filter L (o : ℚ) = 0 := by
  unfold lanczos_filter
  rw [if_neg (by exact_mod_cast ho)]
  split
  · rfl
  · have hsin : Real.sin (Real.pi * (((o : ℚ) : ℚ) : ℝ)) = 0 := by
      have hco : (((o : ℚ)) : ℝ) = (o : ℝ) := by push_cast; ring
      rw [hco, mul_comm]
      exact Real.sin_int_mul_pi o
    rw [hsin, zero_div, zero_mul]

theorem selectedFilter_self (t : Bool) (L : ℕ) (x : ℚ) :
    selectedFilter t L L x = lanczos_filter L x := by
  unfold selectedFilter
  split
  · rename_i h
    simp only [lanczos3_filter_table]
    rw [h.2]
  · rfl

/-! ### Helper lemmas: the grid stage -/

theorem retainedKs_mem {w h : ℤ} {ixo iyo : List ℤ} {fxiF fyiF : ℕ → ℚ} {k : ℕ}
    (hk : k ∈ retainedKs w h ixo iyo fxiF fyiF) :
    k < iyo.length * ixo.length ∧ 0 ≤ roundHalfEven (fxiF k) ∧
    0 ≤ roundHalfEven (fyiF k) ∧ roundHalfEven (fxiF k) < w ∧
    roundHalfEven (fyiF k) < h := by
  unfold retainedKs at hk
  rw [List.mem_filter] at hk
  obtain ⟨hmem, hp⟩ := hk
  rw [List.mem_range] at hmem
  have hp2 := of_decide_eq_true hp
  exact ⟨hmem, hp2.1, hp2.2.1, hp2.2.2.1, hp2.2.2.2⟩

theorem retainedKs_nodup (w h : ℤ) (ixo iyo : List ℤ) (fxiF fyiF : ℕ → ℚ) :
    (retainedKs w h ixo iyo fxiF fyiF).Nodup :=
  (List.nodup_range _).filter _

theorem gridStage_noOverlap_iff {t : Bool} {L : ℕ} {W H w h x0 y0 x1 y1 m : ℤ}
    {fx fy : ℚ → ℚ → ℚ} {ims : List (List (List ℝ))} :
    gridStage t L W H w h x0 y0 x1 y1 m fx fy ims = .error .noOverlap ↔
      ((gridX W x0 x1 m).length = 0 ∨ (gridY H y0 y1 m).length = 0) := by
  by_cases hc : (gridX W x0 x1 m).length = 0 ∨ (gridY H y0 y1 m).length = 0
  · simp only [gridStage]
    rw [if_pos hc]
    simpa [← List.length_eq_zero] using hc
  · simp only [gridStage]
    rw [if_neg hc]
    rw [not_or] at hc
    simpa [← List.length_eq_zero] using hc

theorem gridStage_ok_spec {t : Bool} {L : ℕ} {W H w h x0 y0 x1 y1 m : ℤ}
    {fx fy : ℚ → ℚ → ℚ} {ims : List (List (List ℝ))}
    {r : List ℤ × List ℤ × List ℤ × List ℤ × List (List ℝ)}
    (hr : gridStage t L W H w h x0 y0 x1 y1 m fx fy ims = .ok r) :
    (gridX W x0 x1 m).length ≠ 0 ∧ (gridY H y0 y1 m).length ≠ 0 ∧
    r.1 = (retainedKs w h (gridX W x0 x1 m) (gridY H y0 y1 m)
            (denseEval fx (gridX W x0 x1 m) (gridY H y0 y1 m))
            (denseEval fy (gridX W x0 x1 m) (gridY H y0 y1 m))).map
          (fun k : ℕ => (gridY H y0 y1 m).getD 0 0 +
            ((k / (gridX W x0 x1 m).length : ℕ) : ℤ)) ∧
    r.2.1 = (retainedKs w h (gridX W x0 x1 m) (gridY H y0 y1 m)
            (denseEval fx (gridX W x0 x1 m) (gridY H y0 y1 m))
            (denseEval fy (gridX W x0 x1 m) (gridY H y0 y1 m))).map
          (fun k : ℕ => (gridX W x0 x1 m).getD 0 0 +
            ((k % (gridX W x0 x1 m).length : ℕ) : ℤ)) ∧
    r.2.2.1 = (retainedKs w h (gridX W x0 x1 m) (gridY H y0 y1 m)
            (denseEval fx (gridX W x0 x1 m) (gridY H y0 y1 m))
            (denseEval fy (gridX W x0 x1 m) (gridY H y0 y1 m))).map
          (fun k : ℕ => roundHalfEven
            (denseEval fy (gridX W x0 x1 m) (gridY H y0 y1 m) k)) ∧
    r.2.2.2.1 = (retainedKs w h (gridX W x0 x1 m) (gridY H y0 y1 m)
            (denseEval fx (gridX W x0 x1 m) (gridY H y0 y1 m))
            (denseEval fy (gridX W x0 x1 m) (gridY H y0 y1 m))).map
          (fun k : ℕ => roundHalfEven
            (denseEval fx (gridX W x0 x1 m) (gridY H y0 y1 m) k)) ∧
    r.2.2.2.2 = (if ims.length = 0 then []
          else _lanczos_interpolate t L
            ((retainedKs w h (gridX W x0 x1 m) (gridY H y0 y1 m)
                (denseEval fx (gridX W x0 x1 m) (gridY H y0 y1 m))
                (denseEval fy (gridX W x0 x1 m) (gridY H y0 y1 m))).map
              (fun k : ℕ => roundHalfEven
                (denseEval fx (gridX W x0 x1 m) (gridY H y0 y1 m) k)))
            ((retainedKs w h (gridX W x0 x1 m) (gridY H y0 y1 m)
                (denseEval fx (gridX W x0 x1 m) (gridY H y0 y1 m))
                (denseEval fy (gridX W x0 x1 m) (gridY H y0 y1 m))).map
              (fun k : ℕ => roundHalfEven
                (denseEval fy (gridX W x0 x1 m) (gridY H y0 y1 m) k)))
            ((retainedKs w h (gridX W x0 x1 m) (gridY H y0 y1 m)
                (denseEval fx (gridX W x0 x1 m) (gridY H y0 y1 m))
                (denseEval fy (gridX W x0 x1 m) (gridY H y0 y1 m))).map
              (fun k : ℕ => denseEval fx (gridX W x0 x1 m) (gridY H y0 y1 m) k -
                (roundHalfEven (denseEval fx (gridX W x0 x1 m) (gridY H y0 y1 m) k) : ℚ)))
            ((retainedKs w h (gridX W x0 x1 m) (gridY H y0 y1 m)
                (denseEval fx (gridX W x0 x1 m) (gridY H y0 y1 m))
                (denseEval fy (gridX W x0 x1 m) (gridY H y0 y1 m))).map
              (fun k : ℕ => denseEval fy (gridX W x0 x1 m) (gridY H y0 y1 m) k -
                (roundHalfEven (denseEval fy (gridX W x0 x1 m) (gridY H y0 y1 m) k) : ℚ)))
            ims) := by
  simp only [gridStage] at hr
  by_cases hc : (gridX W x0 x1 m).length = 0 ∨ (gridY H y0 y1 m).length = 0
  · rw [if_pos hc] at hr
    exact absurd hr (by simp)
  · rw [if_neg hc] at hr
    have heq := (Except.ok.inj hr).symm
    rw [not_or] at hc
    subst heq
    exact ⟨hc.1, hc.2, rfl, rfl, rfl, rfl, rfl⟩

theorem resample_ok_as_gridStage {splineFit : List ℚ → List ℚ → List (List ℚ) → ℚ → ℚ → ℚ}
    {t : Bool} {tgt wcs : WCS} {ims : List (List (List ℝ))} {L : ℕ}
    {sp fb : Bool} {step : ℚ} {m : ℤ}
    {r : List ℤ × List ℤ × List ℤ × List ℤ × List (List ℝ)}
    (hr : resample_with_wcs splineFit t tgt wcs ims L sp fb step m = .ok r) :
    ∃ m2 fx2 fy2, gridStage t L tgt.imagew tgt.imageh wcs.imagew wcs.imageh
      (bboxOf tgt wcs wcs.imagew wcs.imageh).x0 (bboxOf tgt wcs wcs.imagew wcs.imageh).y0
      (bboxOf tgt wcs wcs.imagew wcs.imageh).x1 (bboxOf tgt wcs wcs.imagew wcs.imageh).y1
      m2 fx2 fy2 ims = .ok r := by
  simp only [resample_with_wcs] at hr
  split at hr
  · split at hr
    · split at hr
      · exact absurd hr (by simp)
      · split at hr
        · split at hr
          · exact ⟨0, _, _, hr⟩
          · exact absurd hr (by simp)
        · exact ⟨m, _, _, hr⟩
    · exact ⟨0, _, _, hr⟩
  · exact absurd hr (by simp)

/-! ### Claim C7: bounding-box estimation -/

/-- Claim C7: the bounding-box estimate takes exactly the four 1-indexed source
corner pixels (1,1), (w,1), (w,h), (1,h), maps each through the source
pixel-to-sky and target sky-to-pixel conversions, subtracts 1, and returns the
per-axis minima and maxima of the four projected points rounded to nearest
integers.  `bboxOf` is a total function of its arguments, so this step never
raises an error. -/
theorem bboxOf_eq_corner_minmax (tgt src : WCS) (w h : ℤ) :
    bboxOf tgt src w h =
      ⟨min (min (min (roundHalfEven (cornerProj tgt src 1 1).1)
                     (roundHalfEven (cornerProj tgt src (w : ℚ) 1).1))
                (roundHalfEven (cornerProj tgt src (w : ℚ) (h : ℚ)).1))
           (roundHalfEven (cornerProj tgt src 1 (h : ℚ)).1),
       min (min (min (roundHalfEven (cornerProj tgt src 1 1).2)
                     (roundHalfEven (cornerProj tgt src (w : ℚ) 1).2))
                (roundHalfEven (cornerProj tgt src (w : ℚ) (h : ℚ)).2))
           (roundHalfEven (cornerProj tgt src 1 (h : ℚ)).2),
       max (max (max (roundHalfEven (cornerProj tgt src 1 1).1)
                     (roundHalfEven (cornerProj tgt src (w : ℚ) 1).1))
                (roundHalfEven (cornerProj tgt src (w : ℚ) (h : ℚ)).1))
           (roundHalfEven (cornerProj tgt src 1 (h : ℚ)).1),
       max (max (max (roundHalfEven (cornerProj tgt src 1 1).2)
                     (roundHalfEven (cornerProj tgt src (w : ℚ) 1).2))
                (roundHalfEven (cornerProj tgt src (w : ℚ) (h : ℚ)).2))
           (roundHalfEven (cornerProj tgt src 1 (h : ℚ)).2)⟩ := by
  simp only [bboxOf, cornerProj, zero_add, sub_add_cancel,
    roundHalfEven_min, roundHalfEven_max]

/-! ### Claim C9: the order-3 fast path matches the general kernel -/

/-- Claim C9: for Lanczos order 3, the lookup-table fast path of
`_lanczos_interpolate` produces exactly the same resampled values as the
general-formula path, for every input. -/
theorem lanczos3_table_path_eq_general (ixi iyi : List ℤ) (dx dy : List ℚ)
    (limages : List (List (List ℝ))) :
    _lanczos_interpolate true 3 ixi iyi dx dy limages =
    _lanczos_interpolate false 3 ixi iyi dx dy limages := by
  unfold _lanczos_interpolate lanczosInterpolate
  simp only [selectedFilter_self]

theorem getD_map {α β : Type} (f : α → β) (l : List α) (d : β) {k : ℕ}
    (hk : k < l.length) : (l.map f).getD k d = f l[k] := by
  rw [List.getD_eq_getElem _ _ (by simpa using hk), List.getElem_map]

theorem gridX_length (W a b m : ℤ) :
    (gridX W a b m).length = (min W (b + m + 1) - max 0 (a - m)).toNat := by
  unfold gridX; exact arange_length _ _

theorem gridY_length (H a b m : ℤ) :
    (gridY H a b m).length = (min H (b + m + 1) - max 0 (a - m)).toNat := by
  unfold gridY; exact arange_length _ _

theorem gridX_getD {W a b m : ℤ} {i : ℕ} (h : i < (gridX W a b m).length) :
    (gridX W a b m).getD i 0 = max 0 (a - m) + (i : ℤ) :=
  arange_getD h

theorem gridY_getD {H a b m : ℤ} {i : ℕ} (h : i < (gridY H a b m).length) :
    (gridY H a b m).getD i 0 = max 0 (a - m) + (i : ℤ) :=
  arange_getD h

theorem gridStage_bounds {t : Bool} {L : ℕ} {W H w h x0 y0 x1 y1 m : ℤ}
    {fx fy : ℚ → ℚ → ℚ} {ims : List (List (List ℝ))}
    {r : List ℤ × List ℤ × List ℤ × List ℤ × List (List ℝ)}
    (hr : gridStage t L W H w h x0 y0 x1 y1 m fx fy ims = .ok r)
    (k : ℕ) (hk : k < r.1.length) :
    (0 ≤ r.2.1.getD k 0 ∧ r.2.1.getD k 0 < W) ∧
    (0 ≤ r.1.getD k 0 ∧ r.1.getD k 0 < H) ∧
    (0 ≤ r.2.2.2.1.getD k 0 ∧ r.2.2.2.1.getD k 0 < w) ∧
    (0 ≤ r.2.2.1.getD k 0 ∧ r.2.2.1.getD k 0 < h) := by
  obtain ⟨hnx, hny, h1, h2, h3, h4, h5⟩ := gridStage_ok_spec hr
  set ixo := gridX W x0 x1 m with hixo
  set iyo := gridY H y0 y1 m with hiyo
  set fxiF := denseEval fx ixo iyo with hfxd
  set fyiF := denseEval fy ixo iyo with hfyd
  set ks := retainedKs w h ixo iyo fxiF fyiF with hksd
  have hklen : k < ks.length := by
    rw [h1, List.length_map] at hk; exact hk
  have hmem : ks[k] ∈ ks := List.getElem_mem hklen
  obtain ⟨hkrange, hxge, hyge, hxlt, hylt⟩ := retainedKs_mem hmem
  have hnI : 0 < ixo.length := Nat.pos_of_ne_zero hnx
  have hnJ : 0 < iyo.length := Nat.pos_of_ne_zero hny
  have e1 : r.1.getD k 0 = iyo.getD 0 0 + ((ks[k] / ixo.length : ℕ) : ℤ) := by
    rw [h1]; exact getD_map _ _ _ hklen
  have e2 : r.2.1.getD k 0 = ixo.getD 0 0 + ((ks[k] % ixo.length : ℕ) : ℤ) := by
    rw [h2]; exact getD_map _ _ _ hklen
  have e3 : r.2.2.1.getD k 0 = roundHalfEven (fyiF ks[k]) := by
    rw [h3]; exact getD_map _ _ _ hklen
  have e4 : r.2.2.2.1.getD k 0 = roundHalfEven (fxiF ks[k]) := by
    rw [h4]; exact getD_map _ _ _ hklen
  have hmod : ks[k] % ixo.length < ixo.length := Nat.mod_lt _ hnI
  have hdiv : ks[k] / ixo.length < iyo.length := by
    rw [Nat.div_lt_iff_lt_mul hnI]; exact hkrange
  have hX0 : ixo.getD 0 0 = max 0 (x0 - m) + ((0 : ℕ) : ℤ) := by
    rw [hixo]; exact gridX_getD (by rw [← hixo]; exact hnI)
  have hY0 : iyo.getD 0 0 = max 0 (y0 - m) + ((0 : ℕ) : ℤ) := by
    rw [hiyo]; exact gridY_getD (by rw [← hiyo]; exact hnJ)
  have hNx : (ixo.length : ℤ) = min W (x1 + m + 1) - max 0 (x0 - m) := by
    have h0 : 0 < (min W (x1 + m + 1) - max 0 (x0 - m)).toNat := by
      rw [hixo, gridX_length] at hnI; exact hnI
    rw [hixo, gridX_length]
    omega
  have hNy : (iyo.length : ℤ) = min H (y1 + m + 1) - max 0 (y0 - m) := by
    have h0 : 0 < (min H (y1 + m + 1) - max 0 (y0 - m)).toNat := by
      rw [hiyo, gridY_length] at hnJ; exact hnJ
    rw [hiyo, gridY_length]
    omega
  have hmodz : ((ks[k] % ixo.length : ℕ) : ℤ) < (ixo.length : ℤ) := by
    exact_mod_cast hmod
  have hdivz : ((ks[k] / ixo.length : ℕ) : ℤ) < (iyo.length : ℤ) := by
    exact_mod_cast hdiv
  refine ⟨⟨?_, ?_⟩, ⟨?_, ?_⟩, ⟨?_, ?_⟩, ⟨?_, ?_⟩⟩
  · rw [e2, hX0]; positivity
  · rw [e2, hX0]; omega
  · rw [e1, hY0]; positivity
  · rw [e1, hY0]; omega
  · rw [e4]; exact hxge
  · rw [e4]; exact hxlt
  · rw [e3]; exact hyge
  · rw [e3]; exact hylt

/-! ### Claim C2: all returned coordinates are in bounds -/

/-- Claim C2: for every successful call to `resample_with_wcs` and every index
into the returned arrays, the target coordinates lie in `[0, W) x [0, H)` and
the integer source coordinates lie in `[0, w) x [0, h)`.  The result tuple is
`(Yo, Xo, Yi, Xi, rims)`, so `r.1` is target-y, `r.2.1` target-x, `r.2.2.1`
source-y and `r.2.2.2.1` source-x. -/
theorem resample_coords_in_bounds
    {splineFit : List ℚ → List ℚ → List (List ℚ) → ℚ → ℚ → ℚ}
    {t : Bool} {tgt wcs : WCS} {ims : List (List (List ℝ))} {L : ℕ}
    {sp fb : Bool} {step : ℚ} {m : ℤ}
    {r : List ℤ × List ℤ × List ℤ × List ℤ × List (List ℝ)}
    (hr : resample_with_wcs splineFit t tgt wcs ims L sp fb step m = .ok r)
    (k : ℕ) (hk : k < r.1.length) :
    (0 ≤ r.2.1.getD k 0 ∧ r.2.1.getD k 0 < tgt.imagew) ∧
    (0 ≤ r.1.getD k 0 ∧ r.1.getD k 0 < tgt.imageh) ∧
    (0 ≤ r.2.2.2.1.getD k 0 ∧ r.2.2.2.1.getD k 0 < wcs.imagew) ∧
    (0 ≤ r.2.2.1.getD k 0 ∧ r.2.2.1.getD k 0 < wcs.imageh) := by
  obtain ⟨m2, fx2, fy2, hg⟩ := resample_ok_as_gridStage hr
  exact gridStage_bounds hg k hk

/-! ### Concrete evaluation helpers for witnesses -/

theorem roundHalfEven_zero : roundHalfEven 0 = 0 := by
  simpa using roundHalfEven_intCast 0

theorem roundHalfEven_one : roundHalfEven 1 = 1 := by
  simpa using roundHalfEven_intCast 1

theorem idWCS_imagew (n : ℤ) : (idWCS n).imagew = n := rfl

theorem idWCS_imageh (n : ℤ) : (idWCS n).imageh = n := rfl

theorem denseEval_directFx_id (n : ℤ) (ixo iyo : List ℤ) (k : ℕ) :
    denseEval (directFx (idWCS n) (idWCS n)) ixo iyo k =
      ((ixo.getD (k % ixo.length) 0 : ℤ) : ℚ) := by
  unfold denseEval directFx idWCS
  norm_num

theorem denseEval_directFy_id (n : ℤ) (ixo iyo : List ℤ) (k : ℕ) :
    denseEval (directFy (idWCS n) (idWCS n)) ixo iyo k =
      ((iyo.getD (k / ixo.length) 0 : ℤ) : ℚ) := by
  unfold denseEval directFy idWCS
  norm_num

/-- Concrete run: 1x1 identity WCS pair, no images, spline disabled.  The
single target pixel (0,0) maps to source pixel (0,0) and is retained. -/
theorem resample_id1_eval :
    resample_with_wcs trivialSplineFit false (idWCS 1) (idWCS 1) [] 1
      false true 25 12 = .ok ([0], [0], [0], [0], []) := by
  have hbb : bboxOf (idWCS 1) (idWCS 1) 1 1 = ⟨0, 0, 0, 0⟩ := by
    unfold bboxOf idWCS
    norm_num [roundHalfEven_zero]
  have hfx0 : denseEval (directFx (idWCS 1) (idWCS 1)) (gridX 1 0 0 0)
      (gridY 1 0 0 0) 0 = 0 := by
    unfold denseEval directFx idWCS gridX gridY arange
    norm_num
  have hfy0 : denseEval (directFy (idWCS 1) (idWCS 1)) (gridX 1 0 0 0)
      (gridY 1 0 0 0) 0 = 0 := by
    unfold denseEval directFy idWCS gridX gridY arange
    norm_num
  have hks : retainedKs 1 1 (gridX 1 0 0 0) (gridY 1 0 0 0)
      (denseEval (directFx (idWCS 1) (idWCS 1)) (gridX 1 0 0 0) (gridY 1 0 0 0))
      (denseEval (directFy (idWCS 1) (idWCS 1)) (gridX 1 0 0 0) (gridY 1 0 0 0)) =
      [0] := by
    unfold retainedKs
    have hlen : (gridY 1 0 0 0).length * (gridX 1 0 0 0).length = 1 := by decide
    rw [hlen]
    rw [show List.range 1 = [0] by decide, List.filter_cons, List.filter_nil]
    rw [if_pos]
    rw [decide_eq_true_iff]
    rw [hfx0, hfy0, roundHalfEven_zero]
    norm_num
  simp only [resample_with_wcs, idWCS_imagew, idWCS_imageh]
  rw [if_pos (by simp)]
  rw [if_neg (by simp)]
  rw [hbb]
  simp only [gridStage]
  rw [if_neg (by decide)]
  rw [hks]
  simp only [List.map_cons, List.map_nil, List.length_nil]
  rw [hfx0, hfy0, roundHalfEven_zero]
  norm_num
  decide

/-- Concrete run: 2x2 identity WCS pair, no images, spline disabled.  All four
target pixels are retained, each with source coordinates equal to its target
coordinates. -/
theorem resample_id2_eval :
    resample_with_wcs trivialSplineFit false (idWCS 2) (idWCS 2) [] 1
      false true 25 12 =
      .ok ([0, 0, 1, 1], [0, 1, 0, 1], [0, 0, 1, 1], [0, 1, 0, 1], []) := by
  have hbb : bboxOf (idWCS 2) (idWCS 2) 2 2 = ⟨0, 0, 1, 1⟩ := by
    unfold bboxOf idWCS
    norm_num [roundHalfEven_zero, roundHalfEven_one]
  have hks : retainedKs 2 2 (gridX 2 0 1 0) (gridY 2 0 1 0)
      (denseEval (directFx (idWCS 2) (idWCS 2)) (gridX 2 0 1 0) (gridY 2 0 1 0))
      (denseEval (directFy (idWCS 2) (idWCS 2)) (gridX 2 0 1 0) (gridY 2 0 1 0)) =
      [0, 1, 2, 3] := by
    unfold retainedKs
    rw [show List.range ((gridY 2 0 1 0).length * (gridX 2 0 1 0).length) = [0, 1, 2, 3]
      by decide]
    simp only [List.filter_cons, List.filter_nil, denseEval_directFx_id,
      denseEval_directFy_id, roundHalfEven_intCast, decide_eq_true_eq]
    norm_num [show gridX 2 0 1 0 = [0, 1] by decide, show gridY 2 0 1 0 = [0, 1] by decide]
  simp only [resample_with_wcs, idWCS_imagew, idWCS_imageh]
  rw [if_pos (by simp)]
  rw [if_neg (by simp)]
  rw [hbb]
  simp only [gridStage]
  rw [if_neg (by decide)]
  rw [hks]
  simp only [List.map_cons, List.map_nil, denseEval_directFx_id, denseEval_directFy_id,
    roundHalfEven_intCast, List.length_nil]
  norm_num [show gridX 2 0 1 0 = [0, 1] by decide, show gridY 2 0 1 0 = [0, 1] by decide]

/-- Witness for C2 at a concrete call: identity 1x1 WCS pair, no images,
spline disabled; the single returned pixel is `(0, 0)` with source `(0, 0)`,
inside the 1x1 bounds. -/
theorem resample_coords_in_bounds_witness :
    ((0 : ℤ) ≤ 0 ∧ (0 : ℤ) < 1) ∧ ((0 : ℤ) ≤ 0 ∧ (0 : ℤ) < 1) ∧
    ((0 : ℤ) ≤ 0 ∧ (0 : ℤ) < 1) ∧ ((0 : ℤ) ≤ 0 ∧ (0 : ℤ) < 1) :=
  resample_coords_in_bounds resample_id1_eval 0 (by decide)

/-! ### Claim C8: result arrays are aligned -/

theorem lanczosInterpolate_length {K : Type} [Field K] (lf : ℕ → ℚ → K) (L : ℕ)
    (ixi iyi : List ℤ) (dx dy : List ℚ) (ims : List (List (List K))) :
    (lanczosInterpolate lf L ixi iyi dx dy ims).length = ims.length := by
  simp [lanczosInterpolate]

theorem lanczosInterpolate_mem_length {K : Type} [Field K] {lf : ℕ → ℚ → K} {L : ℕ}
    {ixi iyi : List ℤ} {dx dy : List ℚ} {ims : List (List (List K))}
    {v : List K} (hv : v ∈ lanczosInterpolate lf L ixi iyi dx dy ims) :
    v.length = ixi.length := by
  unfold lanczosInterpolate at hv
  obtain ⟨im, _, rfl⟩ := List.mem_map.1 hv
  simp

/-- Claim C8: every successful call returns four integer coordinate arrays of
one common length N, and a list of value arrays with exactly one entry per
supplied source image, each of length N; with no source images the value list
is empty while the coordinate arrays are still returned. -/
theorem resample_result_aligned
    {splineFit : List ℚ → List ℚ → List (List ℚ) → ℚ → ℚ → ℚ}
    {t : Bool} {tgt wcs : WCS} {ims : List (List (List ℝ))} {L : ℕ}
    {sp fb : Bool} {step : ℚ} {m : ℤ}
    {r : List ℤ × List ℤ × List ℤ × List ℤ × List (List ℝ)}
    (hr : resample_with_wcs splineFit t tgt wcs ims L sp fb step m = .ok r) :
    r.2.1.length = r.1.length ∧ r.2.2.1.length = r.1.length ∧
    r.2.2.2.1.length = r.1.length ∧ r.2.2.2.2.length = ims.length ∧
    (∀ v ∈ r.2.2.2.2, v.length = r.1.length) ∧
    (ims = [] → r.2.2.2.2 = []) := by
  obtain ⟨m2, fx2, fy2, hg⟩ := resample_ok_as_gridStage hr
  obtain ⟨hnx, hny, h1, h2, h3, h4, h5⟩ := gridStage_ok_spec hg
  refine ⟨?_, ?_, ?_, ?_, ?_, ?_⟩
  · rw [h1, h2, List.length_map, List.length_map]
  · rw [h1, h3, List.length_map, List.length_map]
  · rw [h1, h4, List.length_map, List.length_map]
  · rw [h5]
    split
    · rename_i hz
      simp [List.length_eq_zero.1 hz]
    · exact lanczosInterpolate_length _ _ _ _ _ _ _
  · intro v hv
    rw [h5] at hv
    split at hv
    · simp at hv
    · have hlen := lanczosInterpolate_mem_length hv
      rw [hlen, h1, List.length_map, List.length_map]
  · intro hnil
    rw [h5, if_pos (by rw [hnil]; rfl)]

/-- Witness for C8: the 1x1 identity run returns four singleton coordinate
arrays and, with no source images supplied, an empty value list. -/
theorem resample_result_aligned_witness :
    (1 = 1) ∧ (1 = 1) ∧ (1 = 1) ∧ (0 = 0) ∧
    (∀ v ∈ ([] : List (List ℝ)), v.length = 1) ∧
    (([] : List (List (List ℝ))) = [] → ([] : List (List ℝ)) = []) :=
  resample_result_aligned resample_id1_eval

/-! ### Claim C10: returned target pixels are pairwise distinct -/

/-- Claim C10: in every successful result, the (target-y, target-x) pairs are
pairwise distinct: the retained indices are distinct cells of the dense target
grid, so `target[Yo, Xo] = ims[i]` writes each target pixel at most once. -/
theorem resample_target_pairs_distinct
    {splineFit : List ℚ → List ℚ → List (List ℚ) → ℚ → ℚ → ℚ}
    {t : Bool} {tgt wcs : WCS} {ims : List (List (List ℝ))} {L : ℕ}
    {sp fb : Bool} {step : ℚ} {m : ℤ}
    {r : List ℤ × List ℤ × List ℤ × List ℤ × List (List ℝ)}
    (hr : resample_with_wcs splineFit t tgt wcs ims L sp fb step m = .ok r)
    (i j : ℕ) (hi : i < r.1.length) (hj : j < r.1.length) (hij : i ≠ j) :
    (r.1.getD i 0, r.2.1.getD i 0) ≠ (r.1.getD j 0, r.2.1.getD j 0) := by
  obtain ⟨m2, fx2, fy2, hg⟩ := resample_ok_as_gridStage hr
  obtain ⟨hnx, hny, h1, h2, h3, h4, h5⟩ := gridStage_ok_spec hg
  set W := tgt.imagew
  set H := tgt.imageh
  set bb := bboxOf tgt wcs wcs.imagew wcs.imageh
  set ixo := gridX W bb.x0 bb.x1 m2 with hixo
  set iyo := gridY H bb.y0 bb.y1 m2 with hiyo
  set fxiF := denseEval fx2 ixo iyo
  set fyiF := denseEval fy2 ixo iyo
  set ks := retainedKs wcs.imagew wcs.imageh ixo iyo fxiF fyiF with hksd
  have hi' : i < ks.length := by rw [h1, List.length_map] at hi; exact hi
  have hj' : j < ks.length := by rw [h1, List.length_map] at hj; exact hj
  have e1i : r.1.getD i 0 = iyo.getD 0 0 + ((ks[i] / ixo.length : ℕ) : ℤ) := by
    rw [h1]; exact getD_map _ _ _ hi'
  have e1j : r.1.getD j 0 = iyo.getD 0 0 + ((ks[j] / ixo.length : ℕ) : ℤ) := by
    rw [h1]; exact getD_map _ _ _ hj'
  have e2i : r.2.1.getD i 0 = ixo.getD 0 0 + ((ks[i] % ixo.length : ℕ) : ℤ) := by
    rw [h2]; exact getD_map _ _ _ hi'
  have e2j : r.2.1.getD j 0 = ixo.getD 0 0 + ((ks[j] % ixo.length : ℕ) : ℤ) := by
    rw [h2]; exact getD_map _ _ _ hj'
  intro hpair
  have hy := congrArg Prod.fst hpair
  have hx := congrArg Prod.snd hpair
  simp only [e1i, e1j, e2i, e2j] at hy hx
  have hdiv : ks[i] / ixo.length = ks[j] / ixo.length := by omega
  have hmod : ks[i] % ixo.length = ks[j] % ixo.length := by omega
  have hkk : ks[i] = ks[j] := by
    have d1 := Nat.div_add_mod ks[i] ixo.length
    have d2 := Nat.div_add_mod ks[j] ixo.length
    rw [hdiv, hmod] at d1
    omega
  have hnd : ks.Nodup := retainedKs_nodup _ _ _ _ _ _
  exact hij ((List.Nodup.getElem_inj_iff hnd).1 hkk)

/-- Witness for C10: in the 2x2 identity run the first two returned target
pixels are `(0,0)` and `(0,1)`, which are distinct. -/
theorem resample_target_pairs_distinct_witness :
    (((0 : ℤ), (0 : ℤ)) ≠ ((0 : ℤ), (1 : ℤ))) :=
  resample_target_pairs_distinct resample_id2_eval 0 1 (by decide) (by decide)
    (by decide)

/-! ### Helper lemmas: reducing `resample_with_wcs` by configuration -/

theorem resample_eq_of_spline_false
    {splineFit : List ℚ → List ℚ → List (List ℚ) → ℚ → ℚ → ℚ}
    {t : Bool} {tgt wcs : WCS} {ims : List (List (List ℝ))} {L : ℕ}
    {fb : Bool} {step : ℚ} {m : ℤ}
    (hsh : ∀ im ∈ ims, ((im : List (List ℝ)).length : ℤ) = wcs.imageh ∧
            ∀ row ∈ im, ((row : List ℝ).length : ℤ) = wcs.imagew) :
    resample_with_wcs splineFit t tgt wcs ims L false fb step m =
      gridStage t L tgt.imagew tgt.imageh wcs.imagew wcs.imageh
        (bboxOf tgt wcs wcs.imagew wcs.imageh).x0
        (bboxOf tgt wcs wcs.imagew wcs.imageh).y0
        (bboxOf tgt wcs wcs.imagew wcs.imageh).x1
        (bboxOf tgt wcs wcs.imagew wcs.imageh).y1 0
        (directFx tgt wcs) (directFy tgt wcs) ims := by
  simp only [resample_with_wcs]
  rw [if_pos hsh, if_neg (by simp)]

theorem resample_eq_of_spline_true
    {splineFit : List ℚ → List ℚ → List (List ℚ) → ℚ → ℚ → ℚ}
    {t : Bool} {tgt wcs : WCS} {ims : List (List (List ℝ))} {L : ℕ}
    {fb : Bool} {step : ℚ} {m : ℤ}
    (hsh : ∀ im ∈ ims, ((im : List (List ℝ)).length : ℤ) = wcs.imageh ∧
            ∀ row ∈ im, ((row : List ℝ).length : ℤ) = wcs.imagew) :
    resample_with_wcs splineFit t tgt wcs ims L true fb step m =
      (if (spanNodes tgt.imagew (bboxOf tgt wcs wcs.imagew wcs.imageh).x0
            (bboxOf tgt wcs wcs.imagew wcs.imageh).x1 m step).length = 0 ∨
          (spanNodes tgt.imageh (bboxOf tgt wcs wcs.imagew wcs.imageh).y0
            (bboxOf tgt wcs wcs.imagew wcs.imageh).y1 m step).length = 0
       then .error .noOverlap
       else if (spanNodes tgt.imagew (bboxOf tgt wcs wcs.imagew wcs.imageh).x0
            (bboxOf tgt wcs wcs.imagew wcs.imageh).x1 m step).length ≤ 3 ∨
          (spanNodes tgt.imageh (bboxOf tgt wcs wcs.imagew wcs.imageh).y0
            (bboxOf tgt wcs wcs.imagew wcs.imageh).y1 m step).length ≤ 3
       then (if fb then
              gridStage t L tgt.imagew tgt.imageh wcs.imagew wcs.imageh
                (bboxOf tgt wcs wcs.imagew wcs.imageh).x0
                (bboxOf tgt wcs wcs.imagew wcs.imageh).y0
                (bboxOf tgt wcs wcs.imagew wcs.imageh).x1
                (bboxOf tgt wcs wcs.imagew wcs.imageh).y1 0
                (directFx tgt wcs) (directFy tgt wcs) ims
             else .error .smallOverlap)
       else
         gridStage t L tgt.imagew tgt.imageh wcs.imagew wcs.imageh
           (bboxOf tgt wcs wcs.imagew wcs.imageh).x0
           (bboxOf tgt wcs wcs.imagew wcs.imageh).y0
           (bboxOf tgt wcs wcs.imagew wcs.imageh).x1
           (bboxOf tgt wcs wcs.imagew wcs.imageh).y1 m
           (fun tx ty => splineFit
             (spanNodes tgt.imagew (bboxOf tgt wcs wcs.imagew wcs.imageh).x0
               (bboxOf tgt wcs wcs.imagew wcs.imageh).x1 m step)
             (spanNodes tgt.imageh (bboxOf tgt wcs wcs.imagew wcs.imageh).y0
               (bboxOf tgt wcs wcs.imagew wcs.imageh).y1 m step)
             ((spanNodes tgt.imageh (bboxOf tgt wcs wcs.imagew wcs.imageh).y0
                 (bboxOf tgt wcs wcs.imagew wcs.imageh).y1 m step).map
               (fun y => (spanNodes tgt.imagew (bboxOf tgt wcs wcs.imagew wcs.imageh).x0
                 (bboxOf tgt wcs wcs.imagew wcs.imageh).x1 m step).map
                 (fun x => directFx tgt wcs x y))).transpose tx ty)
           (fun tx ty => splineFit
             (spanNodes tgt.imagew (bboxOf tgt wcs wcs.imagew wcs.imageh).x0
               (bboxOf tgt wcs wcs.imagew wcs.imageh).x1 m step)
             (spanNodes tgt.imageh (bboxOf tgt wcs wcs.imagew wcs.imageh).y0
               (bboxOf tgt wcs wcs.imagew wcs.imageh).y1 m step)
             ((spanNodes tgt.imageh (bboxOf tgt wcs wcs.imagew wcs.imageh).y0
                 (bboxOf tgt wcs wcs.imagew wcs.imageh).y1 m step).map
               (fun y => (spanNodes tgt.imagew (bboxOf tgt wcs wcs.imagew wcs.imageh).x0
                 (bboxOf tgt wcs wcs.imagew wcs.imageh).x1 m step).map
                 (fun x => directFy tgt wcs x y))).transpose tx ty) ims) := by
  simp only [resample_with_wcs]
  rw [if_pos hsh, if_pos trivial]

/-! ### Claim C3: spline node-count dispatch -/

/-- Claim C3: with spline mode enabled, a zero-length spanning vector raises
`NoOverlapError`; a nonzero spanning vector of 3 or fewer nodes either falls
back to the direct mapper (the call computes exactly what the non-spline call
computes) when fallback is enabled, or raises `SmallOverlapError` when
fallback is disabled. -/
theorem resample_spline_dispatch
    (splineFit : List ℚ → List ℚ → List (List ℚ) → ℚ → ℚ → ℚ)
    (t : Bool) (tgt wcs : WCS) (ims : List (List (List ℝ))) (L : ℕ)
    (fb : Bool) (step : ℚ) (m : ℤ)
    (hsh : ∀ im ∈ ims, ((im : List (List ℝ)).length : ℤ) = wcs.imageh ∧
            ∀ row ∈ im, ((row : List ℝ).length : ℤ) = wcs.imagew) :
    (((spanNodes tgt.imagew (bboxOf tgt wcs wcs.imagew wcs.imageh).x0
        (bboxOf tgt wcs wcs.imagew wcs.imageh).x1 m step).length = 0 ∨
      (spanNodes tgt.imageh (bboxOf tgt wcs wcs.imagew wcs.imageh).y0
        (bboxOf tgt wcs wcs.imagew wcs.imageh).y1 m step).length = 0) →
      resample_with_wcs splineFit t tgt wcs ims L true fb step m =
        .error .noOverlap) ∧
    (¬ ((spanNodes tgt.imagew (bboxOf tgt wcs wcs.imagew wcs.imageh).x0
        (bboxOf tgt wcs wcs.imagew wcs.imageh).x1 m step).length = 0 ∨
      (spanNodes tgt.imageh (bboxOf tgt wcs wcs.imagew wcs.imageh).y0
        (bboxOf tgt wcs wcs.imagew wcs.imageh).y1 m step).length = 0) →
     ((spanNodes tgt.imagew (bboxOf tgt wcs wcs.imagew wcs.imageh).x0
        (bboxOf tgt wcs wcs.imagew wcs.imageh).x1 m step).length ≤ 3 ∨
      (spanNodes tgt.imageh (bboxOf tgt wcs wcs.imagew wcs.imageh).y0
        (bboxOf tgt wcs wcs.imagew wcs.imageh).y1 m step).length ≤ 3) →
      (fb = true →
        resample_with_wcs splineFit t tgt wcs ims L true fb step m =
        resample_with_wcs splineFit t tgt wcs ims L false fb step m) ∧
      (fb = false →
        resample_with_wcs splineFit t tgt wcs ims L true fb step m =
          .error .smallOverlap)) := by
  constructor
  · intro h0
    rw [resample_eq_of_spline_true hsh, if_pos h0]
  · intro hne h3
    constructor
    · intro hfb
      subst hfb
      rw [resample_eq_of_spline_true hsh, if_neg hne, if_pos h3, if_pos rfl,
          resample_eq_of_spline_false hsh]
    · intro hfb
      subst hfb
      rw [resample_eq_of_spline_true hsh, if_neg hne, if_pos h3, if_neg (by simp)]

theorem constWCS_imagew (a b : ℤ) (px py : ℚ) : (constWCS a b px py).imagew = a := rfl

theorem constWCS_imageh (a b : ℤ) (px py : ℚ) : (constWCS a b px py).imageh = b := rfl

/-- Concrete bounding box for the small-overlap configuration: every source
corner projects to 1-indexed target position (-12, 3), i.e. 0-indexed
(-13, 2). -/
theorem bbox_const_small :
    bboxOf (constWCS 100 100 (-12) 3) (idWCS 5) 5 5 = ⟨-13, 2, -13, 2⟩ := by
  unfold bboxOf constWCS idWCS
  norm_num
  constructor
  · rw [show ((-13 : ℚ)) = (((-13 : ℤ)) : ℚ) by norm_num, roundHalfEven_intCast]
  · constructor
    · rw [show ((2 : ℚ)) = (((2 : ℤ)) : ℚ) by norm_num, roundHalfEven_intCast]
    · constructor
      · rw [show ((-13 : ℚ)) = (((-13 : ℤ)) : ℚ) by norm_num, roundHalfEven_intCast]
      · rw [show ((2 : ℚ)) = (((2 : ℤ)) : ℚ) by norm_num, roundHalfEven_intCast]

/-- The x spanning vector of the small-overlap configuration has one node. -/
theorem spanNodes_const_x : spanNodes 100 (-13) (-13) 12 25 = [0] := by
  simp only [spanNodes]
  rw [show (max 0 (-13 - 12 : ℤ)) = 0 by decide,
      show (min 100 (-13 + 12 : ℤ)) = -1 by decide]
  have hc : (⌈((((-1 : ℤ)) : ℚ) - (((0 : ℤ)) : ℚ)) / 25⌉ : ℤ) = 0 := by
    rw [Int.ceil_eq_iff]
    constructor <;> norm_num
  rw [hc]
  norm_num [linspace]

/-- The y spanning vector of the small-overlap configuration has two nodes. -/
theorem spanNodes_const_y : spanNodes 100 2 2 12 25 = [0, 14] := by
  simp only [spanNodes]
  rw [show (max 0 (2 - 12 : ℤ)) = 0 by decide,
      show (min 100 (2 + 12 : ℤ)) = 14 by decide]
  have hc : (⌈((((14 : ℤ)) : ℚ) - (((0 : ℤ)) : ℚ)) / 25⌉ : ℤ) = 1 := by
    rw [Int.ceil_eq_iff]
    constructor <;> norm_num
  rw [hc]
  unfold linspace
  rw [show ((1 : ℤ) + 1).toNat = 2 from rfl]
  norm_num [List.range_succ]

/-- Witness for C3: in the small-overlap configuration (all corners project to
one point far outside the target), the x spanning vector has a single node, so
with fallback disabled the call raises `SmallOverlapError`. -/
theorem resample_spline_dispatch_witness :
    resample_with_wcs trivialSplineFit false (constWCS 100 100 (-12) 3) (idWCS 5)
      [] 1 true false 25 12 = .error .smallOverlap := by
  have hx : spanNodes (constWCS 100 100 (-12) 3).imagew
      (bboxOf (constWCS 100 100 (-12) 3) (idWCS 5) (idWCS 5).imagew
        (idWCS 5).imageh).x0
      (bboxOf (constWCS 100 100 (-12) 3) (idWCS 5) (idWCS 5).imagew
        (idWCS 5).imageh).x1 12 25 = [0] := by
    rw [constWCS_imagew, idWCS_imagew, idWCS_imageh, bbox_const_small]
    exact spanNodes_const_x
  have hy : spanNodes (constWCS 100 100 (-12) 3).imageh
      (bboxOf (constWCS 100 100 (-12) 3) (idWCS 5) (idWCS 5).imagew
        (idWCS 5).imageh).y0
      (bboxOf (constWCS 100 100 (-12) 3) (idWCS 5) (idWCS 5).imagew
        (idWCS 5).imageh).y1 12 25 = [0, 14] := by
    rw [constWCS_imageh, idWCS_imagew, idWCS_imageh, bbox_const_small]
    exact spanNodes_const_y
  refine ((resample_spline_dispatch trivialSplineFit false (constWCS 100 100 (-12) 3)
      (idWCS 5) [] 1 false 25 12 (by simp)).2 ?_ ?_).2 rfl
  · rw [hx, hy]
    decide
  · rw [hx]
    left
    decide

/-! ### Claim C6: spline spanning vectors -/

theorem linspace_getD_zero {a b : ℚ} {n : ℤ} (hn : 1 ≤ n) :
    (linspace a b n).getD 0 0 = a := by
  by_cases h1 : n = 1
  · subst h1
    rw [linspace_one]
    rfl
  · have h2 : 2 ≤ n := by omega
    rw [linspace_getD h2 (by omega : (0 : ℕ) < n.toNat)]
    simp

theorem linspace_getD_last {a b : ℚ} {n : ℤ} (h2 : 2 ≤ n) :
    (linspace a b n).getD (n.toNat - 1) 0 = b := by
  have hi : n.toNat - 1 < n.toNat := by omega
  rw [linspace_getD h2 hi]
  have hnz : ((n.toNat : ℤ) : ℚ) = (n : ℚ) := by
    have h3 : (n.toNat : ℤ) = n := Int.toNat_of_nonneg (by omega)
    exact_mod_cast h3
  have hc : ((n.toNat - 1 : ℕ) : ℚ) = (n : ℚ) - 1 := by
    have h1 : (1 : ℕ) ≤ n.toNat := by omega
    rw [Nat.cast_sub h1, Nat.cast_one]
    rw [show ((n.toNat : ℚ)) = ((n.toNat : ℤ) : ℚ) by norm_cast, hnz]
  rw [hc]
  have hne : (n : ℚ) - 1 ≠ 0 := by
    have h3 : (2 : ℚ) ≤ (n : ℚ) := by exact_mod_cast h2
    intro h
    linarith
  field_simp

theorem linspace_getD_spacing {a b : ℚ} {n : ℤ} (h2 : 2 ≤ n) {i : ℕ}
    (hi : i + 1 < n.toNat) :
    (linspace a b n).getD (i + 1) 0 - (linspace a b n).getD i 0 =
      (b - a) / ((n : ℚ) - 1) := by
  rw [linspace_getD h2 hi, linspace_getD h2 (by omega)]
  have hne : (n : ℚ) - 1 ≠ 0 := by
    have h3 : (2 : ℚ) ≤ (n : ℚ) := by exact_mod_cast h2
    intro h
    linarith
  push_cast
  field_simp
  ring

/-- Claim C6 (amended): whenever the margin-padded, clamped range of a
bounding-box side is nondegenerate (`max 0 (a-margin) ≤ min lim (b+margin)`),
the spanning vector built by `spanNodes` lies within the CLOSED interval
`[0, lim]` (the code clamps with `min(lim, ...)`, so the node `lim` itself can
occur; the claim's half-open `[0, lim)` is false), is nonempty, includes both
endpoints of the clamped range, and has consecutive spacing at most the
configured step.  Instantiating `lim` with the target width (x axis) or height
(y axis) gives both spanning vectors of `resample_with_wcs`. -/
theorem spanNodes_span (lim a b margin : ℤ) (step : ℚ) (hstep : 0 < step)
    (hnd : max 0 (a - margin) ≤ min lim (b + margin)) :
    (∀ q ∈ spanNodes lim a b margin step, 0 ≤ q ∧ q ≤ (lim : ℚ)) ∧
    spanNodes lim a b margin step ≠ [] ∧
    (spanNodes lim a b margin step).getD 0 0 = ((max 0 (a - margin) : ℤ) : ℚ) ∧
    (spanNodes lim a b margin step).getD
        ((spanNodes lim a b margin step).length - 1) 0 =
      ((min lim (b + margin) : ℤ) : ℚ) ∧
    (∀ i : ℕ, i + 1 < (spanNodes lim a b margin step).length →
      (spanNodes lim a b margin step).getD (i + 1) 0 -
        (spanNodes lim a b margin step).getD i 0 ≤ step) := by
  rw [show spanNodes lim a b margin step =
      linspace ((max 0 (a - margin) : ℤ) : ℚ) ((min lim (b + margin) : ℤ) : ℚ)
        (⌈(((min lim (b + margin) : ℤ) : ℚ) -
          ((max 0 (a - margin) : ℤ) : ℚ)) / step⌉ + 1) from rfl]
  set lo : ℚ := ((max 0 (a - margin) : ℤ) : ℚ) with hlo
  set hi : ℚ := ((min lim (b + margin) : ℤ) : ℚ) with hhi
  set z : ℤ := ⌈(hi - lo) / step⌉ with hz
  have hq : lo ≤ hi := by rw [hlo, hhi]; exact_mod_cast hnd
  have hd0 : (0 : ℚ) ≤ hi - lo := by linarith
  have hceil0 : (0 : ℤ) ≤ z := Int.ceil_nonneg (div_nonneg hd0 (le_of_lt hstep))
  have hn1 : 1 ≤ z + 1 := by omega
  refine ⟨?_, ?_, ?_, ?_, ?_⟩
  · intro q hqmem
    have hb := linspace_mem_bounds hq hqmem
    constructor
    · have h0 : (0 : ℚ) ≤ lo := by
        rw [hlo]
        have h1 : (0 : ℤ) ≤ max 0 (a - margin) := le_max_left _ _
        exact_mod_cast h1
      linarith [hb.1]
    · have h1 : hi ≤ (lim : ℚ) := by
        rw [hhi]
        have h2 : min lim (b + margin) ≤ lim := min_le_left _ _
        exact_mod_cast h2
      linarith [hb.2]
  · rw [Ne, linspace_eq_nil_iff]
    omega
  · exact linspace_getD_zero hn1
  · by_cases h1 : z + 1 = 1
    · have hc0 : z = 0 := by omega
      have hd : hi - lo ≤ 0 := by
        rw [hz] at hc0
        have h2 := (Int.ceil_eq_zero_iff).1 hc0
        simp only [Set.mem_Ioc] at h2
        by_contra hcon
        push_neg at hcon
        have h4 : 0 < (hi - lo) / step := div_pos hcon hstep
        linarith [h2.2]
      have heq : hi = lo := by linarith
      rw [h1, linspace_one, heq]
      rfl
    · have h2 : 2 ≤ z + 1 := by omega
      rw [linspace_length]
      exact linspace_getD_last h2
  · intro i hi2
    rw [linspace_length] at hi2
    have h2 : 2 ≤ z + 1 := by omega
    have hsp := linspace_getD_spacing (a := lo) (b := hi) h2 hi2
    rw [hsp]
    have hz1 : 1 ≤ z := by omega
    have hzq : (1 : ℚ) ≤ (z : ℚ) := by exact_mod_cast hz1
    have hcast : ((z + 1 : ℤ) : ℚ) - 1 = (z : ℚ) := by push_cast; ring
    rw [hcast]
    rw [div_le_iff₀ (by linarith : (0 : ℚ) < (z : ℚ))]
    have hle : (hi - lo) / step ≤ (z : ℚ) := Int.le_ceil _
    calc hi - lo = ((hi - lo) / step) * step := by field_simp
      _ ≤ (z : ℚ) * step := mul_le_mul_of_nonneg_right hle (le_of_lt hstep)
      _ = step * (z : ℚ) := by ring

/-- Witness for C6 (amended) at the concrete configuration of the
counterexample: target width 10, bounding box x-side [0, 29], margin 12,
step 25. -/
theorem spanNodes_span_witness :
    (∀ q ∈ spanNodes 10 0 29 12 25, 0 ≤ q ∧ q ≤ ((10 : ℤ) : ℚ)) ∧
    spanNodes 10 0 29 12 25 ≠ [] ∧
    (spanNodes 10 0 29 12 25).getD 0 0 = ((max 0 (0 - 12) : ℤ) : ℚ) ∧
    (spanNodes 10 0 29 12 25).getD
        ((spanNodes 10 0 29 12 25).length - 1) 0 =
      ((min 10 (29 + 12) : ℤ) : ℚ) ∧
    (∀ i : ℕ, i + 1 < (spanNodes 10 0 29 12 25).length →
      (spanNodes 10 0 29 12 25).getD (i + 1) 0 -
        (spanNodes 10 0 29 12 25).getD i 0 ≤ 25) :=
  spanNodes_span 10 0 29 12 25 (by norm_num) (by decide)

/-- Counterexample for C6 as stated: with a 10x10 target, a 30x30 identity
source, default margin 12 and step 25, the clamped x range is [0, 10], so the
node 10 = W itself appears in the x spanning vector; it does not lie in the
half-open interval [0, W). -/
theorem spanNodes_node_at_W :
    bboxOf (idWCS 10) (idWCS 30) 30 30 = ⟨0, 0, 29, 29⟩ ∧
    (10 : ℚ) ∈ spanNodes 10 0 29 12 25 ∧ ¬ ((10 : ℚ) < ((10 : ℤ) : ℚ)) := by
  refine ⟨?_, ?_, by norm_num⟩
  · have h29 : roundHalfEven 29 = 29 := by
      rw [show ((29 : ℚ)) = (((29 : ℤ)) : ℚ) by norm_num, roundHalfEven_intCast]
    unfold bboxOf idWCS
    norm_num [roundHalfEven_zero, h29]
  · have he : spanNodes 10 0 29 12 25 = [0, 10] := by
      simp only [spanNodes]
      rw [show (max 0 (0 - 12 : ℤ)) = 0 by decide,
          show (min 10 (29 + 12 : ℤ)) = 10 by decide]
      have hc : (⌈((((10 : ℤ)) : ℚ) - (((0 : ℤ)) : ℚ)) / 25⌉ : ℤ) = 1 := by
        rw [Int.ceil_eq_iff]
        constructor <;> norm_num
      rw [hc]
      unfold linspace
      rw [show ((1 : ℤ) + 1).toNat = 2 from rfl]
      norm_num [List.range_succ]
    rw [he]
    simp

/-! ### Claim C5: NoOverlapError versus an empty candidate grid -/

theorem gridX_empty_of_spanNodes_empty {lim a b m : ℤ} {step : ℚ}
    (hstep : 1 ≤ step) (hm : 0 ≤ m)
    (h : (spanNodes lim a b m step).length = 0) :
    (gridX lim a b 0).length = 0 := by
  have hlen : (spanNodes lim a b m step).length =
      (⌈(((min lim (b + m) : ℤ) : ℚ) - ((max 0 (a - m) : ℤ) : ℚ)) / step⌉ + 1).toNat := by
    rw [show spanNodes lim a b m step =
        linspace ((max 0 (a - m) : ℤ) : ℚ) ((min lim (b + m) : ℤ) : ℚ)
          (⌈(((min lim (b + m) : ℤ) : ℚ) - ((max 0 (a - m) : ℤ) : ℚ)) / step⌉ + 1)
        from rfl]
    exact linspace_length
  rw [hlen] at h
  have hc : ⌈(((min lim (b + m) : ℤ) : ℚ) - ((max 0 (a - m) : ℤ) : ℚ)) / step⌉ ≤ -1 := by
    omega
  have hc2 : (((min lim (b + m) : ℤ) : ℚ) - ((max 0 (a - m) : ℤ) : ℚ)) / step ≤
      ((-1 : ℤ) : ℚ) := by
    exact le_trans (Int.le_ceil _) (by exact_mod_cast hc)
  have hstep0 : (0 : ℚ) < step := by linarith
  rw [div_le_iff₀ hstep0] at hc2
  have hd : (((min lim (b + m) : ℤ) : ℚ) - ((max 0 (a - m) : ℤ) : ℚ)) ≤ -1 := by
    push_cast at hc2 ⊢
    nlinarith
  have hdz : (min lim (b + m) - max 0 (a - m) : ℤ) ≤ -1 := by
    exact_mod_cast hd
  rw [gridX_length]
  omega

theorem gridY_empty_of_spanNodes_empty {lim a b m : ℤ} {step : ℚ}
    (hstep : 1 ≤ step) (hm : 0 ≤ m)
    (h : (spanNodes lim a b m step).length = 0) :
    (gridY lim a b 0).length = 0 :=
  gridX_empty_of_spanNodes_empty hstep hm h

/-- Claim C5 (amended): provided the call does not instead raise
`SmallOverlapError` (spline mode enabled, fallback disabled, spanning vectors
nonzero with 3 or fewer nodes), `resample_with_wcs` raises `NoOverlapError`
exactly when the dense candidate grid - built with the effective margin, i.e.
the configured margin only when the spline survives with at least 4 nodes per
axis, else 0 - is empty along an axis; and any successful call with zero
retained pixels returns all-empty arrays rather than an error. -/
theorem resample_noOverlap_iff
    (splineFit : List ℚ → List ℚ → List (List ℚ) → ℚ → ℚ → ℚ)
    (t : Bool) (tgt wcs : WCS) (ims : List (List (List ℝ))) (L : ℕ)
    (sp fb : Bool) (step : ℚ) (m : ℤ)
    (hsh : ∀ im ∈ ims, ((im : List (List ℝ)).length : ℤ) = wcs.imageh ∧
            ∀ row ∈ im, ((row : List ℝ).length : ℤ) = wcs.imagew)
    (hstep : 1 ≤ step) (hm : 0 ≤ m)
    (hnotsmall : ¬ (sp = true ∧
      ¬ ((spanNodes tgt.imagew (bboxOf tgt wcs wcs.imagew wcs.imageh).x0
            (bboxOf tgt wcs wcs.imagew wcs.imageh).x1 m step).length = 0 ∨
          (spanNodes tgt.imageh (bboxOf tgt wcs wcs.imagew wcs.imageh).y0
            (bboxOf tgt wcs wcs.imagew wcs.imageh).y1 m step).length = 0) ∧
      ((spanNodes tgt.imagew (bboxOf tgt wcs wcs.imagew wcs.imageh).x0
            (bboxOf tgt wcs wcs.imagew wcs.imageh).x1 m step).length ≤ 3 ∨
          (spanNodes tgt.imageh (bboxOf tgt wcs wcs.imagew wcs.imageh).y0
            (bboxOf tgt wcs wcs.imagew wcs.imageh).y1 m step).length ≤ 3) ∧
      fb = false)) :
    (resample_with_wcs splineFit t tgt wcs ims L sp fb step m =
        .error .noOverlap ↔
      ((gridX tgt.imagew (bboxOf tgt wcs wcs.imagew wcs.imageh).x0
          (bboxOf tgt wcs wcs.imagew wcs.imageh).x1
          (effectiveMargin sp m
            (spanNodes tgt.imagew (bboxOf tgt wcs wcs.imagew wcs.imageh).x0
              (bboxOf tgt wcs wcs.imagew wcs.imageh).x1 m step)
            (spanNodes tgt.imageh (bboxOf tgt wcs wcs.imagew wcs.imageh).y0
              (bboxOf tgt wcs wcs.imagew wcs.imageh).y1 m step))).length = 0 ∨
       (gridY tgt.imageh (bboxOf tgt wcs wcs.imagew wcs.imageh).y0
          (bboxOf tgt wcs wcs.imagew wcs.imageh).y1
          (effectiveMargin sp m
            (spanNodes tgt.imagew (bboxOf tgt wcs wcs.imagew wcs.imageh).x0
              (bboxOf tgt wcs wcs.imagew wcs.imageh).x1 m step)
            (spanNodes tgt.imageh (bboxOf tgt wcs wcs.imagew wcs.imageh).y0
              (bboxOf tgt wcs wcs.imagew wcs.imageh).y1 m step))).length = 0)) ∧
    (∀ r : List ℤ × List ℤ × List ℤ × List ℤ × List (List ℝ),
      resample_with_wcs splineFit t tgt wcs ims L sp fb step m = .ok r →
      r.2.2.1 = [] →
      r.1 = [] ∧ r.2.1 = [] ∧ r.2.2.2.1 = [] ∧ ∀ v ∈ r.2.2.2.2, v = []) := by
  constructor
  · cases sp with
    | false =>
      rw [resample_eq_of_spline_false hsh]
      rw [show effectiveMargin false m
          (spanNodes tgt.imagew (bboxOf tgt wcs wcs.imagew wcs.imageh).x0
            (bboxOf tgt wcs wcs.imagew wcs.imageh).x1 m step)
          (spanNodes tgt.imageh (bboxOf tgt wcs wcs.imagew wcs.imageh).y0
            (bboxOf tgt wcs wcs.imagew wcs.imageh).y1 m step) = 0
        from by simp [effectiveMargin]]
      exact gridStage_noOverlap_iff
    | true =>
      rw [resample_eq_of_spline_true hsh]
      by_cases h0 : ((spanNodes tgt.imagew (bboxOf tgt wcs wcs.imagew wcs.imageh).x0
            (bboxOf tgt wcs wcs.imagew wcs.imageh).x1 m step).length = 0 ∨
          (spanNodes tgt.imageh (bboxOf tgt wcs wcs.imagew wcs.imageh).y0
            (bboxOf tgt wcs wcs.imagew wcs.imageh).y1 m step).length = 0)
      · rw [if_pos h0]
        have hem : effectiveMargin true m
            (spanNodes tgt.imagew (bboxOf tgt wcs wcs.imagew wcs.imageh).x0
              (bboxOf tgt wcs wcs.imagew wcs.imageh).x1 m step)
            (spanNodes tgt.imageh (bboxOf tgt wcs wcs.imagew wcs.imageh).y0
              (bboxOf tgt wcs wcs.imagew wcs.imageh).y1 m step) = 0 := by
          unfold effectiveMargin
          rw [if_neg]
          rintro ⟨-, h4x, h4y⟩
          rcases h0 with h | h <;> omega
        rw [hem]
        constructor
        · intro _
          rcases h0 with h | h
          · exact Or.inl (gridX_empty_of_spanNodes_empty hstep hm h)
          · exact Or.inr (gridY_empty_of_spanNodes_empty hstep hm h)
        · intro _
          rfl
      · rw [if_neg h0]
        by_cases h3 : ((spanNodes tgt.imagew (bboxOf tgt wcs wcs.imagew wcs.imageh).x0
              (bboxOf tgt wcs wcs.imagew wcs.imageh).x1 m step).length ≤ 3 ∨
            (spanNodes tgt.imageh (bboxOf tgt wcs wcs.imagew wcs.imageh).y0
              (bboxOf tgt wcs wcs.imagew wcs.imageh).y1 m step).length ≤ 3)
        · rw [if_pos h3]
          have hfb : fb = true := by
            cases fb with
            | true => rfl
            | false => exact absurd ⟨rfl, h0, h3, rfl⟩ hnotsmall
          rw [hfb, if_pos rfl]
          have hem : effectiveMargin true m
              (spanNodes tgt.imagew (bboxOf tgt wcs wcs.imagew wcs.imageh).x0
                (bboxOf tgt wcs wcs.imagew wcs.imageh).x1 m step)
              (spanNodes tgt.imageh (bboxOf tgt wcs wcs.imagew wcs.imageh).y0
                (bboxOf tgt wcs wcs.imagew wcs.imageh).y1 m step) = 0 := by
            unfold effectiveMargin
            rw [if_neg]
            rintro ⟨-, h4x, h4y⟩
            rcases h3 with h | h <;> omega
          rw [hem]
          exact gridStage_noOverlap_iff
        · rw [if_neg h3]
          have hem : effectiveMargin true m
              (spanNodes tgt.imagew (bboxOf tgt wcs wcs.imagew wcs.imageh).x0
                (bboxOf tgt wcs wcs.imagew wcs.imageh).x1 m step)
              (spanNodes tgt.imageh (bboxOf tgt wcs wcs.imagew wcs.imageh).y0
                (bboxOf tgt wcs wcs.imagew wcs.imageh).y1 m step) = m := by
            unfold effectiveMargin
            rw [if_pos]
            rw [not_or] at h0 h3
            exact ⟨rfl, by omega, by omega⟩
          rw [hem]
          exact gridStage_noOverlap_iff
  · intro r hr hYi
    obtain ⟨m2, fx2, fy2, hg⟩ := resample_ok_as_gridStage hr
    obtain ⟨hnx, hny, h1, h2, h3c, h4c, h5c⟩ := gridStage_ok_spec hg
    rw [h3c] at hYi
    have hks := List.map_eq_nil_iff.1 hYi
    refine ⟨?_, ?_, ?_, ?_⟩
    · rw [h1, hks]; rfl
    · rw [h2, hks]; rfl
    · rw [h4c, hks]; rfl
    · intro v hv
      rw [h5c] at hv
      split at hv
      · simp at hv
      · unfold _lanczos_interpolate at hv
        have hl := lanczosInterpolate_mem_length hv
        rw [hks] at hl
        simp only [List.map_nil, List.length_nil] at hl
        exact List.length_eq_zero.1 hl

/-- Witness for C5 (amended) at a concrete call: 1x1 identity pair, spline
disabled; the iff relating `NoOverlapError` to emptiness of the
effective-margin candidate grid holds. -/
theorem resample_noOverlap_iff_witness :
    (resample_with_wcs trivialSplineFit false (idWCS 1) (idWCS 1) [] 1
        false true 25 12 = .error .noOverlap ↔
      ((gridX (idWCS 1).imagew (bboxOf (idWCS 1) (idWCS 1) (idWCS 1).imagew (idWCS 1).imageh).x0 (bboxOf (idWCS 1) (idWCS 1) (idWCS 1).imagew (idWCS 1).imageh).x1 (effectiveMargin false 12 (spanNodes (idWCS 1).imagew (bboxOf (idWCS 1) (idWCS 1) (idWCS 1).imagew (idWCS 1).imageh).x0 (bboxOf (idWCS 1) (idWCS 1) (idWCS 1).imagew (idWCS 1).imageh).x1 12 25) (spanNodes (idWCS 1).imageh (bboxOf (idWCS 1) (idWCS 1) (idWCS 1).imagew (idWCS 1).imageh).y0 (bboxOf (idWCS 1) (idWCS 1) (idWCS 1).imagew (idWCS 1).imageh).y1 12 25))).length = 0 ∨
       (gridY (idWCS 1).imageh (bboxOf (idWCS 1) (idWCS 1) (idWCS 1).imagew (idWCS 1).imageh).y0 (bboxOf (idWCS 1) (idWCS 1) (idWCS 1).imagew (idWCS 1).imageh).y1 (effectiveMargin false 12 (spanNodes (idWCS 1).imagew (bboxOf (idWCS 1) (idWCS 1) (idWCS 1).imagew (idWCS 1).imageh).x0 (bboxOf (idWCS 1) (idWCS 1) (idWCS 1).imagew (idWCS 1).imageh).x1 12 25) (spanNodes (idWCS 1).imageh (bboxOf (idWCS 1) (idWCS 1) (idWCS 1).imagew (idWCS 1).imageh).y0 (bboxOf (idWCS 1) (idWCS 1) (idWCS 1).imagew (idWCS 1).imageh).y1 12 25))).length = 0)) :=
  (resample_noOverlap_iff trivialSplineFit false (idWCS 1) (idWCS 1) [] 1
    false true 25 12 (by simp) (by norm_num) (by norm_num) (by simp)).1

/-- Counterexample for C5 as stated: in the small-overlap configuration the
dense candidate x grid is empty (with margin 0 and even with the configured
margin 12), yet the call raises `SmallOverlapError`, not `NoOverlapError` -
so "NoOverlapError exactly when the grid is empty" fails when spline mode is
on with fallback disabled. -/
theorem resample_smallOverlap_with_empty_grid :
    resample_with_wcs trivialSplineFit false (constWCS 100 100 (-12) 3) (idWCS 5)
        [] 1 true false 25 12 = .error .smallOverlap ∧
    (gridX 100 (-13) (-13) 0).length = 0 ∧
    (gridX 100 (-13) (-13) 12).length = 0 ∧
    bboxOf (constWCS 100 100 (-12) 3) (idWCS 5) 5 5 = ⟨-13, 2, -13, 2⟩ ∧
    (Except.error ResampleError.smallOverlap ≠
      (Except.error ResampleError.noOverlap :
        Except ResampleError (List ℤ × List ℤ × List ℤ × List ℤ × List (List ℝ)))) := by
  have hx : spanNodes (constWCS 100 100 (-12) 3).imagew
      (bboxOf (constWCS 100 100 (-12) 3) (idWCS 5) (idWCS 5).imagew
        (idWCS 5).imageh).x0
      (bboxOf (constWCS 100 100 (-12) 3) (idWCS 5) (idWCS 5).imagew
        (idWCS 5).imageh).x1 12 25 = [0] := by
    rw [constWCS_imagew, idWCS_imagew, idWCS_imageh, bbox_const_small]
    exact spanNodes_const_x
  have hy : spanNodes (constWCS 100 100 (-12) 3).imageh
      (bboxOf (constWCS 100 100 (-12) 3) (idWCS 5) (idWCS 5).imagew
        (idWCS 5).imageh).y0
      (bboxOf (constWCS 100 100 (-12) 3) (idWCS 5) (idWCS 5).imagew
        (idWCS 5).imageh).y1 12 25 = [0, 14] := by
    rw [constWCS_imageh, idWCS_imagew, idWCS_imageh, bbox_const_small]
    exact spanNodes_const_y
  refine ⟨?_, by decide, by decide, bbox_const_small, by simp⟩
  rw [resample_eq_of_spline_true (by simp)]
  rw [if_neg (by rw [hx, hy]; decide), if_pos (Or.inl (by rw [hx]; decide)),
      if_neg (by simp)]

/-! ### Claim C4: identity transform reproduces coordinates and values -/

/-- At zero fractional offsets the separable Lanczos kernel degenerates to
pure sample selection: the only nonzero weight in the `(2L+1) x (2L+1)` window
is the central one (weight 1), and the shared normalization sum for a single
image is 1, so the resampled value is exactly the in-bounds source sample. -/
theorem lanczosInterpolate_delta {L : ℕ} (lf : ℕ → ℚ → ℝ)
    (hlf : ∀ x : ℚ, lf L x = lanczos_filter L x)
    (ixi iyi : List ℤ) (dx dy : List ℚ) (im : List (List ℝ))
    (k : ℕ) (hk : k < ixi.length)
    (hdx : dx.getD k 0 = 0) (hdy : dy.getD k 0 = 0)
    (hxbound : 0 ≤ ixi.getD k 0 ∧ ixi.getD k 0 ≤ (((im.getD 0 []).length : ℤ) - 1))
    (hybound : 0 ≤ iyi.getD k 0 ∧ iyi.getD k 0 ≤ ((im.length : ℤ) - 1)) :
    ((lanczosInterpolate lf L ixi iyi dx dy [im]).getD 0 []).getD k 0 =
      imAt im (iyi.getD k 0) (ixi.getD k 0) := by
  have hFne : ∀ o : ℤ, o ≠ 0 → lf L ((0 : ℚ) - (o : ℚ)) = 0 := by
    intro o ho
    rw [hlf, show ((0 : ℚ) - (o : ℚ)) = (((-o : ℤ)) : ℚ) by push_cast; ring]
    exact lanczos_filter_intCast (by omega)
  have hF0 : lf L ((0 : ℚ) - ((0 : ℤ) : ℚ)) = 1 := by
    rw [hlf, show ((0 : ℚ) - ((0 : ℤ) : ℚ)) = 0 by norm_num]
    exact lanczos_filter_zero L
  have hclipy : clip (iyi.getD k 0 + 0) 0 ((im.length : ℤ) - 1) = iyi.getD k 0 := by
    unfold clip
    omega
  have hclipx : clip (ixi.getD k 0 + 0) 0 (((im.getD 0 []).length : ℤ) - 1) =
      ixi.getD k 0 := by
    unfold clip
    omega
  unfold lanczosInterpolate
  simp only [List.map_cons, List.map_nil, List.getD_cons_zero]
  rw [getD_map _ _ _ (by simpa using hk)]
  rw [List.getElem_range]
  rw [hdx, hdy]
  have hlacc : ((off L).map (fun oy : ℤ => ((off L).map (fun ox : ℤ =>
      lf L ((0 : ℚ) - (ox : ℚ)) * lf L ((0 : ℚ) - (oy : ℚ)) *
        imAt im (clip (iyi.getD k 0 + oy) 0 ((im.length : ℤ) - 1))
                (clip (ixi.getD k 0 + ox) 0 (((im.getD 0 []).length : ℤ) - 1)))).sum)).sum =
      imAt im (iyi.getD k 0) (ixi.getD k 0) := by
    rw [sum_map_eq_single _ (off L) (off_nodup L) 0 (zero_mem_off L)
        (by intro oy hoymem hoy
            apply List.sum_eq_zero
            intro x hx
            obtain ⟨ox, hoxmem, rfl⟩ := List.mem_map.1 hx
            rw [hFne oy hoy]
            ring)]
    rw [sum_map_eq_single _ (off L) (off_nodup L) 0 (zero_mem_off L)
        (by intro ox hoxmem hox
            rw [hFne ox hox]
            ring)]
    rw [hF0]
    rw [hclipy, hclipx]
    ring
  have hfsum : ((off L).map (fun oy : ℤ => ((off L).map (fun ox : ℤ =>
      ([lf L ((0 : ℚ) - (ox : ℚ)) * lf L ((0 : ℚ) - (oy : ℚ))] : List ℝ).sum)).sum)).sum
      = 1 := by
    simp only [List.sum_cons, List.sum_nil, add_zero]
    rw [sum_map_eq_single _ (off L) (off_nodup L) 0 (zero_mem_off L)
        (by intro oy hoymem hoy
            apply List.sum_eq_zero
            intro x hx
            obtain ⟨ox, hoxmem, rfl⟩ := List.mem_map.1 hx
            rw [hFne oy hoy]
            ring)]
    rw [sum_map_eq_single _ (off L) (off_nodup L) 0 (zero_mem_off L)
        (by intro ox hoxmem hox
            rw [hFne ox hox]
            ring)]
    rw [hF0]
    ring
  rw [hlacc, hfsum, div_one]

/-- Claim C4: when the two mappers describe the same pixel grid (the
target pixel-to-sky composed with source sky-to-pixel is the identity) and
spline mode is disabled, every retained pixel has integer source coordinates
equal to its target coordinates, and for a single source image the
Lanczos-resampled value equals the original image value at that pixel
exactly. -/
theorem resample_identity_exact
    {splineFit : List ℚ → List ℚ → List (List ℚ) → ℚ → ℚ → ℚ}
    {tableAvail : Bool} {tgt wcs : WCS} {im : List (List ℝ)} {L : ℕ}
    {fb : Bool} {step : ℚ} {m : ℤ}
    {r : List ℤ × List ℤ × List ℤ × List ℤ × List (List ℝ)}
    (hid : ∀ x y : ℚ, (wcs.radec2pixelxy (tgt.pixelxy2radec x y).1
        (tgt.pixelxy2radec x y).2).2 = (x, y))
    (hr : resample_with_wcs splineFit tableAvail tgt wcs [im] L false fb step m = .ok r)
    (k : ℕ) (hk : k < r.1.length) :
    r.2.2.1.getD k 0 = r.1.getD k 0 ∧
    r.2.2.2.1.getD k 0 = r.2.1.getD k 0 ∧
    (r.2.2.2.2.getD 0 []).getD k 0 =
      imAt im (r.1.getD k 0) (r.2.1.getD k 0) := by
  have hsh : ∀ im2 ∈ [im], ((im2 : List (List ℝ)).length : ℤ) = wcs.imageh ∧
      ∀ row ∈ im2, ((row : List ℝ).length : ℤ) = wcs.imagew := by
    by_contra hc
    simp only [resample_with_wcs] at hr
    rw [if_neg hc] at hr
    exact absurd hr (by simp)
  rw [resample_eq_of_spline_false hsh] at hr
  obtain ⟨hnx, hny, h1, h2, h3, h4, h5⟩ := gridStage_ok_spec hr
  have him : (im.length : ℤ) = wcs.imageh := (hsh im (by simp)).1
  have hrow : ∀ row ∈ im, ((row : List ℝ).length : ℤ) = wcs.imagew :=
    (hsh im (by simp)).2
  have hfx : ∀ tx ty : ℚ, directFx tgt wcs tx ty = tx := by
    intro tx ty
    show (wcs.radec2pixelxy (tgt.pixelxy2radec (tx + 1) (ty + 1)).1
      (tgt.pixelxy2radec (tx + 1) (ty + 1)).2).2.1 - 1 = tx
    rw [show (wcs.radec2pixelxy (tgt.pixelxy2radec (tx + 1) (ty + 1)).1
        (tgt.pixelxy2radec (tx + 1) (ty + 1)).2).2.1 = ((tx + 1, ty + 1) : ℚ × ℚ).1
      from congrArg Prod.fst (hid (tx + 1) (ty + 1))]
    norm_num
  have hfy : ∀ tx ty : ℚ, directFy tgt wcs tx ty = ty := by
    intro tx ty
    show (wcs.radec2pixelxy (tgt.pixelxy2radec (tx + 1) (ty + 1)).1
      (tgt.pixelxy2radec (tx + 1) (ty + 1)).2).2.2 - 1 = ty
    rw [show (wcs.radec2pixelxy (tgt.pixelxy2radec (tx + 1) (ty + 1)).1
        (tgt.pixelxy2radec (tx + 1) (ty + 1)).2).2.2 = ((tx + 1, ty + 1) : ℚ × ℚ).2
      from congrArg Prod.snd (hid (tx + 1) (ty + 1))]
    norm_num
  set bb := bboxOf tgt wcs wcs.imagew wcs.imageh with hbb
  set ixo := gridX tgt.imagew bb.x0 bb.x1 0 with hixo
  set iyo := gridY tgt.imageh bb.y0 bb.y1 0 with hiyo
  set fxiF := denseEval (directFx tgt wcs) ixo iyo with hfxF
  set fyiF := denseEval (directFy tgt wcs) ixo iyo with hfyF
  set ks := retainedKs wcs.imagew wcs.imageh ixo iyo fxiF fyiF with hksd
  have hdeX : ∀ j : ℕ, fxiF j = ((ixo.getD (j % ixo.length) 0 : ℤ) : ℚ) := by
    intro j
    rw [hfxF]
    unfold denseEval
    rw [hfx]
  have hdeY : ∀ j : ℕ, fyiF j = ((iyo.getD (j / ixo.length) 0 : ℤ) : ℚ) := by
    intro j
    rw [hfyF]
    unfold denseEval
    rw [hfy]
  have hklen : k < ks.length := by
    rw [h1, List.length_map] at hk; exact hk
  have hmem : ks[k] ∈ ks := List.getElem_mem hklen
  obtain ⟨hkrange, hxge, hyge, hxlt, hylt⟩ := retainedKs_mem hmem
  have hrx : roundHalfEven (fxiF ks[k]) = ixo.getD (ks[k] % ixo.length) 0 := by
    rw [hdeX, roundHalfEven_intCast]
  have hry : roundHalfEven (fyiF ks[k]) = iyo.getD (ks[k] / ixo.length) 0 := by
    rw [hdeY, roundHalfEven_intCast]
  have e1 : r.1.getD k 0 = iyo.getD 0 0 + ((ks[k] / ixo.length : ℕ) : ℤ) := by
    rw [h1]; exact getD_map _ _ _ hklen
  have e2 : r.2.1.getD k 0 = ixo.getD 0 0 + ((ks[k] % ixo.length : ℕ) : ℤ) := by
    rw [h2]; exact getD_map _ _ _ hklen
  have e3 : r.2.2.1.getD k 0 = roundHalfEven (fyiF ks[k]) := by
    rw [h3]; exact getD_map _ _ _ hklen
  have e4 : r.2.2.2.1.getD k 0 = roundHalfEven (fxiF ks[k]) := by
    rw [h4]; exact getD_map _ _ _ hklen
  have hnI : 0 < ixo.length := Nat.pos_of_ne_zero hnx
  have hnJ : 0 < iyo.length := Nat.pos_of_ne_zero hny
  have hdivlt : ks[k] / ixo.length < iyo.length := by
    rw [Nat.div_lt_iff_lt_mul hnI]; exact hkrange
  have hmodlt : ks[k] % ixo.length < ixo.length := Nat.mod_lt _ hnI
  have gy1 : iyo.getD (ks[k] / ixo.length) 0 =
      max 0 (bb.y0 - 0) + ((ks[k] / ixo.length : ℕ) : ℤ) := by
    rw [hiyo]
    exact gridY_getD (by rw [← hiyo]; exact hdivlt)
  have gy0 : iyo.getD 0 0 = max 0 (bb.y0 - 0) + ((0 : ℕ) : ℤ) := by
    rw [hiyo]
    exact gridY_getD (by rw [← hiyo]; exact hnJ)
  have gx1 : ixo.getD (ks[k] % ixo.length) 0 =
      max 0 (bb.x0 - 0) + ((ks[k] % ixo.length : ℕ) : ℤ) := by
    rw [hixo]
    exact gridX_getD (by rw [← hixo]; exact hmodlt)
  have gx0 : ixo.getD 0 0 = max 0 (bb.x0 - 0) + ((0 : ℕ) : ℤ) := by
    rw [hixo]
    exact gridX_getD (by rw [← hixo]; exact hnI)
  have hyy : r.2.2.1.getD k 0 = r.1.getD k 0 := by
    rw [e3, hry, gy1, e1, gy0]
    push_cast
    ring
  have hxx : r.2.2.2.1.getD k 0 = r.2.1.getD k 0 := by
    rw [e4, hrx, gx1, e2, gx0]
    push_cast
    ring
  refine ⟨hyy, hxx, ?_⟩
  have himageh_pos : 0 < wcs.imageh := by omega
  have himne : im ≠ [] := by
    intro h0
    rw [h0] at him
    simp at him
    omega
  have himlen_pos : 0 < im.length := List.length_pos.2 himne
  have hrow0 : ((im.getD 0 []).length : ℤ) = wcs.imagew := by
    apply hrow
    rw [List.getD_eq_getElem _ _ himlen_pos]
    exact List.getElem_mem himlen_pos
  rw [h5, if_neg (by simp)]
  unfold _lanczos_interpolate
  have hkx : k < (ks.map (fun j : ℕ => roundHalfEven (fxiF j))).length := by
    rw [List.length_map]; exact hklen
  have hdxk : (ks.map (fun j : ℕ => fxiF j - (roundHalfEven (fxiF j) : ℚ))).getD k 0 = 0 := by
    rw [getD_map _ _ _ hklen, hdeX, roundHalfEven_intCast]
    ring
  have hdyk : (ks.map (fun j : ℕ => fyiF j - (roundHalfEven (fyiF j) : ℚ))).getD k 0 = 0 := by
    rw [getD_map _ _ _ hklen, hdeY, roundHalfEven_intCast]
    ring
  have hXi : (ks.map (fun j : ℕ => roundHalfEven (fxiF j))).getD k 0 =
      roundHalfEven (fxiF ks[k]) := getD_map _ _ _ hklen
  have hYi : (ks.map (fun j : ℕ => roundHalfEven (fyiF j))).getD k 0 =
      roundHalfEven (fyiF ks[k]) := getD_map _ _ _ hklen
  have hres := lanczosInterpolate_delta (selectedFilter tableAvail L)
    (selectedFilter_self tableAvail L)
    (ks.map (fun j : ℕ => roundHalfEven (fxiF j)))
    (ks.map (fun j : ℕ => roundHalfEven (fyiF j)))
    (ks.map (fun j : ℕ => fxiF j - (roundHalfEven (fxiF j) : ℚ)))
    (ks.map (fun j : ℕ => fyiF j - (roundHalfEven (fyiF j) : ℚ)))
    im k hkx hdxk hdyk
    (by rw [hXi]; constructor
        · exact hxge
        · omega)
    (by rw [hYi]; constructor
        · exact hyge
        · omega)
  rw [hres, hXi, hYi]
  rw [← e3, ← e4, hyy, hxx]

/-- Concrete kernel evaluation: a single 1x1 image at integer-aligned
coordinates passes through the Lanczos stage unchanged. -/
theorem lanczos_id_1x1_eval :
    _lanczos_interpolate false 1 [0] [0] [0] [0] [[[(5 : ℝ)]]] = [[(5 : ℝ)]] := by
  have hd := lanczosInterpolate_delta (L := 1) (selectedFilter false 1)
    (selectedFilter_self false 1) [0] [0] [0] [0] [[(5 : ℝ)]] 0 (by simp)
    rfl rfl (by norm_num) (by norm_num)
  unfold _lanczos_interpolate
  have hstruct : lanczosInterpolate (selectedFilter false 1) 1 [0] [0] [0] [0]
      [[[(5 : ℝ)]]] =
      [[((lanczosInterpolate (selectedFilter false 1) 1 [0] [0] [0] [0]
        [[[(5 : ℝ)]]]).getD 0 []).getD 0 0]] := rfl
  rw [hstruct, hd]
  norm_num [imAt]

/-- Concrete run: 1x1 identity WCS pair, a single 1x1 image `[[5]]`, spline
disabled.  The single target pixel is retained with source coordinates `(0,0)`
and the resampled value is exactly `5`. -/
theorem resample_id1_im_eval :
    resample_with_wcs trivialSplineFit false (idWCS 1) (idWCS 1) [[[(5 : ℝ)]]] 1
      false false 25 12 = .ok ([0], [0], [0], [0], [[(5 : ℝ)]]) := by
  have hbb : bboxOf (idWCS 1) (idWCS 1) 1 1 = ⟨0, 0, 0, 0⟩ := by
    unfold bboxOf idWCS
    norm_num [roundHalfEven_zero]
  have hfx0 : denseEval (directFx (idWCS 1) (idWCS 1)) (gridX 1 0 0 0)
      (gridY 1 0 0 0) 0 = 0 := by
    unfold denseEval directFx idWCS gridX gridY arange
    norm_num
  have hfy0 : denseEval (directFy (idWCS 1) (idWCS 1)) (gridX 1 0 0 0)
      (gridY 1 0 0 0) 0 = 0 := by
    unfold denseEval directFy idWCS gridX gridY arange
    norm_num
  have hks : retainedKs 1 1 (gridX 1 0 0 0) (gridY 1 0 0 0)
      (denseEval (directFx (idWCS 1) (idWCS 1)) (gridX 1 0 0 0) (gridY 1 0 0 0))
      (denseEval (directFy (idWCS 1) (idWCS 1)) (gridX 1 0 0 0) (gridY 1 0 0 0)) =
      [0] := by
    unfold retainedKs
    have hlen : (gridY 1 0 0 0).length * (gridX 1 0 0 0).length = 1 := by decide
    rw [hlen]
    rw [show List.range 1 = [0] by decide, List.filter_cons, List.filter_nil]
    rw [if_pos]
    rw [decide_eq_true_iff]
    rw [hfx0, hfy0, roundHalfEven_zero]
    norm_num
  simp only [resample_with_wcs, idWCS_imagew, idWCS_imageh]
  rw [if_pos (by norm_num)]
  rw [if_neg (by simp)]
  rw [hbb]
  simp only [gridStage]
  rw [if_neg (by decide)]
  rw [hks]
  simp only [List.map_cons, List.map_nil, List.length_cons, List.length_nil]
  rw [hfx0, hfy0, roundHalfEven_zero]
  norm_num
  refine ⟨by decide, by decide, lanczos_id_1x1_eval⟩

/-- Witness for claim C4: 1x1 identity WCS pair with the single image `[[5]]`;
the call succeeds, the one retained pixel has equal source and target
coordinates, and its resampled value is exactly the original sample. -/
theorem resample_identity_exact_witness :
    resample_with_wcs trivialSplineFit false (idWCS 1) (idWCS 1) [[[(5 : ℝ)]]] 1
      false false 25 12 = .ok ([0], [0], [0], [0], [[(5 : ℝ)]]) ∧
    ([[(5 : ℝ)]].getD 0 []).getD 0 0 = imAt [[(5 : ℝ)]] 0 0 := by
  have hr := resample_id1_im_eval
  refine ⟨hr, ?_⟩
  have h := resample_identity_exact (fun x y => rfl) hr 0 (by simp)
  exact h.2.2

/-! ### Claim C1: normalization sum is accumulated once per image (code bug) -/

/-- Claim C1: refuted.  The statement `fsum += fx*fy` sits inside the per-image
loop of `_lanczos_interpolate` (line 324), so with two images supplied together
the normalization sum is twice the weight sum: each constant-`7` 1x1 image
resamples to `7/2 = 3.5`, not `7`.  The claimed sharing of `fsum` across images
(one accumulation per kernel-offset pair) does not hold as soon as more than
one image is supplied. -/
theorem lanczos_fsum_per_image_bug :
    _lanczos_interpolate false 1 [0] [0] [0] [0] [[[(7 : ℝ)]], [[(7 : ℝ)]]] =
      [[(7 : ℝ) / 2], [(7 : ℝ) / 2]] ∧ ((7 : ℝ) / 2 ≠ 7) := by
  have hsel : selectedFilter false 1 = lanczos_filter := by
    unfold selectedFilter
    rw [if_neg (by simp)]
  have k1 : lanczos_filter 1 (1 : ℚ) = 0 := by
    rw [show (1 : ℚ) = ((1 : ℤ) : ℚ) by norm_num]
    exact lanczos_filter_intCast (by norm_num)
  have km : lanczos_filter 1 (-1 : ℚ) = 0 := by
    rw [show (-1 : ℚ) = ((-1 : ℤ) : ℚ) by norm_num]
    exact lanczos_filter_intCast (by norm_num)
  have k0 : lanczos_filter 1 (0 : ℚ) = 1 := lanczos_filter_zero 1
  refine ⟨?_, by norm_num⟩
  unfold _lanczos_interpolate
  rw [hsel]
  simp only [lanczosInterpolate]
  norm_num [off, List.range_succ, imAt, clip, k1, km, k0]
